import Mathlib

/-!
Shallow embedding of the `kdb` core of libelektra (src/libs/elektra/kdb.c):
the `kdbGet` / `kdbSet` pipeline orchestrators, their phase-loop helpers
(`initBackends`, `resolveBackendsForGet`, `resolveBackendsForSet`,
`runGetPhase`, `runSetPhase`), and the mountpoint parser
(`parseAndAddMountpoint`, `elektraMountpointsParse`).

Key/KeySet primitives (`ksAppendKey`, `ksCut`, `ksBelow`, ...), the backend
helper library (`backendsForParentKey`, `backendsDivide`, `backendsMerge`,
`backendsFindParent`), the error macros of kdberrors.h and the global-plugin
hooks are not part of kdb.c; they are modelled from the specification and
marked `Modelled from the spec:` in their doc comments.

Plugins are external code; a plugin is modelled as a pure behaviour
function from (entry point, phase, keyset, parent value) to a result
(status code, new keyset, new parent value, error/warning attempts).
-/

namespace Elektra

/-- Namespaces of key names (spec section 3: six namespaces plus the
synthetic cascading namespace and `meta`). -/
inductive Namespace where
  | cascadingNs
  | metaNs
  | specNs
  | procNs
  | dirNs
  | userNs
  | systemNs
  | defaultNs
deriving DecidableEq, Repr

/-- A key name: a namespace and a list of unescaped path segments. -/
structure KeyName where
  ns : Namespace
  path : List String
deriving DecidableEq, Repr

/-- Modelled from the spec: path-segment prefix test used by the key
hierarchy (`a` is an ancestor prefix of `b`). -/
def segsPrefix : List String → List String → Bool
  | [], _ => true
  | _ :: _, [] => false
  | a :: as, b :: bs => a == b && segsPrefix as bs

/-- Modelled from the spec: `keyIsBelowOrSame a b` is true when `b` lies in
the subtree rooted at `a` (same namespace, `a`'s path a prefix of `b`'s). -/
def keyIsBelowOrSame (a b : KeyName) : Bool :=
  a.ns == b.ns && segsPrefix a.path b.path

/-- A configuration entry: name, string value, per-key sync flag
(`KEY_FLAG_SYNC`). -/
structure Key where
  name : KeyName
  value : String := ""
  sync : Bool := false
deriving DecidableEq, Repr

/-- The closed set of error kinds (spec section 7). -/
inductive ErrKind where
  | interfaceErr
  | installationErr
  | internalErr
  | resourceErr
  | conflictingState
  | pluginMisbehavior
  | validationErr
deriving DecidableEq, Repr

/-- An error or warning record: kind plus message. -/
structure ErrInfo where
  kind : ErrKind
  msg : String
deriving DecidableEq, Repr

/-- The caller's parent key: name, value, read-only flags and the error /
warning metadata (`meta:/error`, `meta:/error/...`, `meta:/warnings/#N`).
`errorRoot` models the presence of the `meta:/error` key itself, which the
error macros check before installing a new error; `errorInfo` models the
`meta:/error/...` children holding the actual error data. -/
structure PKey where
  name : KeyName
  value : String := ""
  roName : Bool := false
  roValue : Bool := false
  roMeta : Bool := false
  errorRoot : Bool := false
  errorInfo : Option ErrInfo := none
  warnings : List ErrInfo := []
deriving DecidableEq, Repr

/-- Modelled from the spec: the error macros of kdberrors.h. If the
`meta:/error` key is already present the error is recorded as a warning
instead (this is the mechanism the `blockErrors` flag of `runSetPhase`
relies on: "set a dummy value to block errors; any errors that occur will
be converted into warnings"). -/
def setError (p : PKey) (e : ErrInfo) : PKey :=
  if p.errorRoot then { p with warnings := p.warnings ++ [e] }
  else { p with errorRoot := true, errorInfo := some e }

/-- Modelled from the spec: the warning macros append a warning entry. -/
def addWarning (p : PKey) (e : ErrInfo) : PKey :=
  { p with warnings := p.warnings ++ [e] }

/-- From kdb.c `clearErrorAndWarnings`: cut the `meta:/error` and
`meta:/warnings` subtrees from the parent key's metadata. -/
def clearErrorAndWarnings (p : PKey) : PKey :=
  { p with errorRoot := false, errorInfo := none, warnings := [] }

/-- Result of one plugin invocation: the plugin's return status, the keyset
it leaves behind, the parent-key value it leaves behind, the errors it
attempted to set on the parent key and the warnings it added. -/
structure PlugOut where
  status : Int := 1
  keys : List Key := []
  parentValue : String := ""
  errs : List ErrInfo := []
  warns : List ErrInfo := []

/-- A plugin: which entry points it exports and its behaviour. `run` takes
the entry point name ("get", "set", "commit", "error"), the phase, the
keyset and the parent-key value. `initStatus` is the status returned by the
`init` entry point. Plugins are external code; behaviours are arbitrary. -/
structure Plugin where
  pname : String := ""
  hasGet : Bool := true
  hasSet : Bool := true
  hasCommit : Bool := true
  hasError : Bool := true
  hasInit : Bool := true
  initStatus : Int := 1
  run : String → String → List Key → String → PlugOut

/-- One backend record (one mountpoint): the mountpoint name (the backend
key's name), the backend plugin, the `initialized` flag of `BackendData`,
the bookkeeping metadata `meta:/internal/kdbreadonly`,
`meta:/internal/kdbmountpoint` and `meta:/internal/kdbneedsupdate` of the
backend key, and the backend's working keyset `BackendData->keys`. -/
structure Backend where
  mountpoint : KeyName
  plugin : Plugin
  initialized : Bool := false
  readonly : Bool := false
  mountpointId : Option String := none
  needsUpdate : Bool := false
  keys : List Key := []

/-- The global KeySet, modelled as an association list from key name to
string value (`ksAppendKey` replaces an existing entry of the same name). -/
def GKS := List (String × String)
deriving DecidableEq, Repr

/-- Modelled from the spec: append into the global keyset, replacing an
entry of the same name. -/
def gAppend : GKS → String → String → GKS
  | [], n, v => [(n, v)]
  | (m, w) :: rest, n, v =>
    if m = n then (m, v) :: rest else (m, w) :: gAppend rest n v

/-- Modelled from the spec: lookup in the global keyset. -/
def gLookup : GKS → String → Option String
  | [], _ => none
  | (m, w) :: rest, n => if m = n then some w else gLookup rest n

/-- One recorded plugin invocation: which mountpoint's backend plugin was
called, through which entry point, for which phase, and the value of the
`system:/elektra/kdb/backend/failedphase` key of the global keyset as the
plugin saw it at call time. -/
structure TraceEntry where
  mountpoint : KeyName
  fn : String
  phase : String
  failedVal : Option String
deriving DecidableEq, Repr

/-- Shared pipeline state threaded through the phase loops: the parent key,
the global keyset and the trace of plugin invocations. -/
structure St where
  parent : PKey
  global : GKS
  trace : List TraceEntry

/-- A KeySet handed to `kdbGet` / `kdbSet`: the keys plus the keyset-level
sync flag `KS_FLAG_SYNC`. -/
structure KS where
  keys : List Key
  sync : Bool := false
deriving DecidableEq, Repr

/-- Modelled from the spec: `ksAppendKey` with set semantics on the name
(replace-if-same-name, append otherwise). -/
def ksAppendKey : List Key → Key → List Key
  | [], k => [k]
  | e :: rest, k =>
    if e.name = k.name then k :: rest else e :: ksAppendKey rest k

/-- Modelled from the spec: `ksAppend` appends a whole keyset, replacing
duplicates by name. -/
def ksAppend (ks : List Key) (other : List Key) : List Key :=
  other.foldl ksAppendKey ks

/-- Modelled from the spec: `ksCut` removes the subtree rooted at `root`,
returning the remaining keyset (the removed part is `ksBelowKeys`). -/
def ksCutKeys (ks : List Key) (root : KeyName) : List Key :=
  ks.filter (fun k => !keyIsBelowOrSame root k.name)

/-- Modelled from the spec: `elektraKsPopAtCursor` removes the element at a
cursor position; out-of-range positions leave the keyset unchanged (the C
function returns NULL without popping). -/
def elektraKsPopAtCursor (ks : List Key) (i : Nat) : List Key :=
  ks.eraseIdx i

/-- From kdb.c `ksKeyNeedSync`: whether any key's sync flag is set. -/
def ksKeyNeedSync (ks : List Key) : Bool :=
  ks.any (fun k => k.sync)

/-- Modelled from the spec: `ksNeedSync` reads the keyset-level flag. -/
def ksNeedSync (ks : KS) : Bool :=
  ks.sync

/-- Status codes of the plugin contract (kdbplugin.h). -/
def ELEKTRA_PLUGIN_STATUS_SUCCESS : Int := 1

/-- No-update status code of the plugin contract. -/
def ELEKTRA_PLUGIN_STATUS_NO_UPDATE : Int := 0

/-- Error status code of the plugin contract. -/
def ELEKTRA_PLUGIN_STATUS_ERROR : Int := -1

/-- Modelled from the spec: find the Backend owning a name — the deepest
backend whose mountpoint is an ancestor of (or equal to) the name. -/
def backendsFindParent : List Backend → KeyName → Option Backend
  | [], _ => none
  | b :: rest, n =>
    match backendsFindParent rest n with
    | none => if keyIsBelowOrSame b.mountpoint n then some b else none
    | some c =>
      if keyIsBelowOrSame b.mountpoint n &&
          decide (c.mountpoint.path.length < b.mountpoint.path.length) then
        some b
      else some c

/-- Modelled from the spec: select the backends for a parent key — every
backend whose mountpoint lies in the parent key's subtree, plus the backend
that owns the parent key itself. A cascading parent selects the matching
backends of every namespace (spec section 6, cascading lookup; the owning
backend of a cascading parent is only exercised at the root `/` in this
development, where it already lies in the subtree). -/
def backendsForParentKey (backends : List Backend) (parent : KeyName) : List Backend :=
  if parent.ns = Namespace.cascadingNs then
    backends.filter (fun b => segsPrefix parent.path b.mountpoint.path)
  else
    let below := backends.filter (fun b => keyIsBelowOrSame parent b.mountpoint)
    match backendsFindParent backends parent with
    | none => below
    | some b =>
      if keyIsBelowOrSame parent b.mountpoint then below else below ++ [b]

/-- Modelled from the spec: partition a keyset among the backends — each
key goes to the working keyset of the deepest backend whose mountpoint is
its ancestor; fails (`none`) when some key is owned by no backend. -/
def backendsDivide (backends : List Backend) (ks : List Key) : Option (List Backend) :=
  if ks.all (fun k => (backendsFindParent backends k.name).isSome) then
    some (backends.map (fun b =>
      { b with keys := ks.filter (fun k =>
          match backendsFindParent backends k.name with
          | some c => c.mountpoint = b.mountpoint
          | none => false) }))
  else none

/-- Modelled from the spec: concatenate the working keysets of all backends
into one keyset (`ksAppend` per backend, in backend order). -/
def backendsMerge (backends : List Backend) (ks : List Key) : List Key :=
  backends.foldl (fun acc b => ksAppend acc b.keys) ks

/-- Name of the current-phase key of the global keyset. -/
def backendPhaseKey : String := "system:/elektra/kdb/backend/phase"

/-- Name of the plugins key of the global keyset. -/
def backendPluginsKey : String := "system:/elektra/kdb/backend/plugins"

/-- Name of the failed-phase key of the global keyset (documented in
doc/dev/backend-plugins.md). -/
def backendFailedPhaseKey : String := "system:/elektra/kdb/backend/failedphase"

/-- Modelled from the spec: escape a path segment for rendering
(slash and backslash are escaped). -/
def escapeSegment (s : String) : String :=
  s.data.foldl (fun acc c =>
    if c = '/' then acc ++ "\\/" else if c = '\\' then acc ++ "\\\\" else acc.push c) ""

/-- Modelled from the spec: the namespace prefix of a rendered key name. -/
def nsString : Namespace → String
  | .cascadingNs => ""
  | .metaNs => "meta"
  | .specNs => "spec"
  | .procNs => "proc"
  | .dirNs => "dir"
  | .userNs => "user"
  | .systemNs => "system"
  | .defaultNs => "default"

/-- Modelled from the spec: render a key name back to its escaped string
form (`<namespace>:/<segment>(/<segment>)*`). -/
def renderKeyName (n : KeyName) : String :=
  let segs := String.intercalate "/" (n.path.map escapeSegment)
  match n.ns with
  | .cascadingNs => "/" ++ segs
  | ns => nsString ns ++ ":/" ++ segs

/-- Apply the error and warning attempts of one plugin invocation to the
parent key (the plugin's error macros run against the current metadata, so
an already-present `meta:/error` turns errors into warnings). -/
def applyPlugAttempts (p : PKey) (out : PlugOut) : PKey :=
  let p := out.errs.foldl setError p
  { p with warnings := p.warnings ++ out.warns }

/-- Record one plugin invocation: the global keyset gets the current phase
and the plugin list appended, and the trace records the call together with
the failed-phase key value the plugin could observe. -/
def pluginCallGlobals (st : St) (mp : KeyName) (fnNm phase : String) : GKS × List TraceEntry :=
  let g := gAppend (gAppend st.global backendPhaseKey phase) backendPluginsKey "<plugins>"
  (g, st.trace ++ [⟨mp, fnNm, phase, gLookup g backendFailedPhaseKey⟩])

/-- Loop body of kdb.c `initBackends`: clear the read-only metadata, skip
initialized backends, reject backends without a kdbInit function, invoke
`init` and interpret its status (success, read-only, error, unknown). -/
def initBackendsLoop : List Backend → St → Bool → List Backend × St × Bool
  | [], st, succ => ([], st, succ)
  | b :: rest, st, succ =>
    let b := { b with readonly := false }
    if b.initialized then
      let r := initBackendsLoop rest st succ
      (b :: r.1, r.2.1, r.2.2)
    else if !b.plugin.hasInit then
      let st := { st with parent := (addWarning st.parent
        ⟨.interfaceErr, "mountpoint defined a plugin without a kdbInit function as a backend"⟩) }
      let r := initBackendsLoop rest st false
      (b :: r.1, r.2.1, r.2.2)
    else
      let p := { st.parent with
        name := ⟨.systemNs, ["elektra", "mountpoints", renderKeyName b.mountpoint]⟩ }
      let g := gAppend st.global backendPluginsKey "<plugins>"
      let tr := st.trace ++ [⟨b.mountpoint, "init", "init", gLookup g backendFailedPhaseKey⟩]
      let st := St.mk p g tr
      let ret := b.plugin.initStatus
      if ret = ELEKTRA_PLUGIN_STATUS_SUCCESS then
        let r := initBackendsLoop rest st succ
        ({ b with initialized := true } :: r.1, r.2.1, r.2.2)
      else if ret = ELEKTRA_PLUGIN_STATUS_NO_UPDATE then
        let r := initBackendsLoop rest st succ
        ({ b with initialized := true, readonly := true } :: r.1, r.2.1, r.2.2)
      else
        let st := { st with parent := (addWarning st.parent
          ⟨.interfaceErr, "calling the kdbInit function for the backend plugin has failed"⟩) }
        let r := initBackendsLoop rest st false
        (b :: r.1, r.2.1, r.2.2)

/-- From kdb.c `initBackends`: run the init loop, then set an interface
error when any backend failed to initialize. -/
def initBackends (backends : List Backend) (st : St) : Bool × List Backend × St :=
  let (bs, st, succ) := initBackendsLoop backends st true
  let st := if succ then st else
    { st with parent := (setError st.parent
      ⟨.interfaceErr, "The init phase of kdbGet() has failed. See warnings for details."⟩) }
  (succ, bs, st)

/-- One plugin invocation of a phase loop: set the parent key to the
backend's mountpoint name and stored mountpoint-id value, append the phase
and plugins keys to the global keyset, record the trace entry, invoke the
entry point and apply the plugin's error and warning attempts. Returns the
new pipeline state and the plugin's result. -/
def phaseCallSt (entry ph : String) (b : Backend) (st : St) : St × PlugOut :=
  let p := { st.parent with name := b.mountpoint, value := b.mountpointId.getD "" }
  let gt := pluginCallGlobals { st with parent := p } b.mountpoint entry ph
  let out := b.plugin.run entry ph b.keys p.value
  (St.mk (applyPlugAttempts p out) gt.1 gt.2, out)

/-- One resolver-phase plugin invocation: like `phaseCallSt` but the parent
value starts empty and stays writable, so the plugin's returned parent
value is kept (the storage identifier). -/
def resolverCallSt (entry : String) (b : Backend) (st : St) : St × PlugOut :=
  let p := { st.parent with name := b.mountpoint, value := "" }
  let gt := pluginCallGlobals { st with parent := p } b.mountpoint entry "resolver"
  let out := b.plugin.run entry "resolver" b.keys p.value
  (St.mk (applyPlugAttempts { p with value := out.parentValue } out) gt.1 gt.2, out)

/-- Loop body of kdb.c `resolveBackendsForGet`: clear the mountpoint-id and
needs-update metadata, reject backends without a kdbGet function, invoke
the resolver phase (parent value writable, name read-only) and interpret
the status: success marks the backend for update and stores the returned
mountpoint id, no-update only stores the id. -/
def resolveBackendsForGetLoop : List Backend → St → Bool → List Backend × St × Bool
  | [], st, succ => ([], st, succ)
  | b :: rest, st, succ =>
    let b := { b with mountpointId := none, needsUpdate := false }
    if !b.plugin.hasGet then
      let st := { st with parent := (addWarning st.parent
        ⟨.interfaceErr, "mountpoint defined a plugin without a kdbGet function as a backend"⟩) }
      let r := resolveBackendsForGetLoop rest st false
      (b :: r.1, r.2.1, r.2.2)
    else
      let co := resolverCallSt "get" b st
      let st := co.1
      let out := co.2
      let b := { b with keys := out.keys }
      if out.status = ELEKTRA_PLUGIN_STATUS_SUCCESS then
        let b := { b with mountpointId := some out.parentValue, needsUpdate := true }
        let r := resolveBackendsForGetLoop rest st succ
        (b :: r.1, r.2.1, r.2.2)
      else if out.status = ELEKTRA_PLUGIN_STATUS_NO_UPDATE then
        let b := { b with mountpointId := some out.parentValue }
        let r := resolveBackendsForGetLoop rest st succ
        (b :: r.1, r.2.1, r.2.2)
      else
        let st := { st with parent := (addWarning st.parent
          ⟨.interfaceErr, "kdbGet for the backend plugin has failed during the resolver phase"⟩) }
        let r := resolveBackendsForGetLoop rest st false
        (b :: r.1, r.2.1, r.2.2)

/-- From kdb.c `resolveBackendsForGet` (note: on failure the source sets
the copy-pasted message naming the init phase). -/
def resolveBackendsForGet (backends : List Backend) (st : St) : Bool × List Backend × St :=
  let (bs, st, succ) := resolveBackendsForGetLoop backends st true
  let st := if succ then st else
    { st with parent := (setError st.parent
      ⟨.interfaceErr, "The init phase of kdbGet() has failed. See warnings for details."⟩) }
  (succ, bs, st)

/-- Loop body of kdb.c `runGetPhase`: reject backends without a kdbGet
function, set the parent key to the backend's mountpoint name and stored
mountpoint-id value (both read-only during the call), invoke the phase and
interpret the status. -/
def runGetPhaseLoop (phase : String) : List Backend → St → Bool → List Backend × St × Bool
  | [], st, succ => ([], st, succ)
  | b :: rest, st, succ =>
    if !b.plugin.hasGet then
      let st := { st with parent := (addWarning st.parent
        ⟨.interfaceErr, "mountpoint defined a plugin without a kdbGet function as a backend"⟩) }
      let r := runGetPhaseLoop phase rest st false
      (b :: r.1, r.2.1, r.2.2)
    else
      let co := phaseCallSt "get" phase b st
      let st := co.1
      let out := co.2
      let b := { b with keys := out.keys }
      if out.status = ELEKTRA_PLUGIN_STATUS_SUCCESS ||
          out.status = ELEKTRA_PLUGIN_STATUS_NO_UPDATE then
        let r := runGetPhaseLoop phase rest st succ
        (b :: r.1, r.2.1, r.2.2)
      else
        let st := { st with parent := (addWarning st.parent
          ⟨.interfaceErr, "kdbGet for the backend plugin has failed during the " ++ phase ++ " phase"⟩) }
        let r := runGetPhaseLoop phase rest st false
        (b :: r.1, r.2.1, r.2.2)

/-- From kdb.c `runGetPhase`: run the loop, then set an interface error
naming the phase when any backend failed. -/
def runGetPhase (backends : List Backend) (st : St) (phase : String) : Bool × List Backend × St :=
  let (bs, st, succ) := runGetPhaseLoop phase backends st true
  let st := if succ then st else
    { st with parent := (setError st.parent
      ⟨.interfaceErr, "The " ++ phase ++ " phase of kdbGet() has failed. See warnings for details."⟩) }
  (succ, bs, st)

/-- Phase name constants (kdbprivate.h). -/
def KDB_GET_PHASE_PRE_STORAGE : String := "prestorage"

/-- Storage phase of the get pipeline. -/
def KDB_GET_PHASE_STORAGE : String := "storage"

/-- Poststorage phase of the get pipeline. -/
def KDB_GET_PHASE_POST_STORAGE : String := "poststorage"

/-- Prestorage phase of the set pipeline. -/
def KDB_SET_PHASE_PRE_STORAGE : String := "prestorage"

/-- Storage phase of the set pipeline. -/
def KDB_SET_PHASE_STORAGE : String := "storage"

/-- Poststorage phase of the set pipeline. -/
def KDB_SET_PHASE_POST_STORAGE : String := "poststorage"

/-- Precommit phase of the set pipeline. -/
def KDB_SET_PHASE_PRE_COMMIT : String := "precommit"

/-- Commit phase of the set pipeline. -/
def KDB_SET_PHASE_COMMIT : String := "commit"

/-- Postcommit phase of the set pipeline. -/
def KDB_SET_PHASE_POST_COMMIT : String := "postcommit"

/-- Prerollback phase of the set pipeline. -/
def KDB_SET_PHASE_PRE_ROLLBACK : String := "prerollback"

/-- Rollback phase of the set pipeline. -/
def KDB_SET_PHASE_ROLLBACK : String := "rollback"

/-- Postrollback phase of the set pipeline. -/
def KDB_SET_PHASE_POST_ROLLBACK : String := "postrollback"

/-- Loop body of kdb.c `resolveBackendsForSet`: clear the mountpoint-id
metadata, reject backends without a kdbSet function, invoke the resolver
phase through the `set` entry point (parent value writable, name
read-only); a no-update status gets a warning and is then treated exactly
like success (fallthrough in the source). -/
def resolveBackendsForSetLoop : List Backend → St → Bool → List Backend × St × Bool
  | [], st, succ => ([], st, succ)
  | b :: rest, st, succ =>
    let b := { b with mountpointId := none }
    if !b.plugin.hasSet then
      let st := { st with parent := (addWarning st.parent
        ⟨.interfaceErr, "mountpoint defined a plugin without a kdbSet function as a backend"⟩) }
      let r := resolveBackendsForSetLoop rest st false
      (b :: r.1, r.2.1, r.2.2)
    else
      let co := resolverCallSt "set" b st
      let out := co.2
      let st := if out.status = ELEKTRA_PLUGIN_STATUS_NO_UPDATE then
          { co.1 with parent := (addWarning (co.1).parent
            ⟨.interfaceErr, "kdbSet returned no-update during the resolver phase, treated like success"⟩) }
        else co.1
      let b := { b with keys := out.keys }
      if out.status = ELEKTRA_PLUGIN_STATUS_SUCCESS ||
          out.status = ELEKTRA_PLUGIN_STATUS_NO_UPDATE then
        let b := { b with mountpointId := some out.parentValue }
        let r := resolveBackendsForSetLoop rest st succ
        (b :: r.1, r.2.1, r.2.2)
      else
        let st := { st with parent := (addWarning st.parent
          ⟨.interfaceErr, "kdbSet for the backend plugin has failed during the resolver phase"⟩) }
        let r := resolveBackendsForSetLoop rest st false
        (b :: r.1, r.2.1, r.2.2)

/-- From kdb.c `resolveBackendsForSet` (the failure message names the init
phase, faithful to the copy-pasted message of the source). -/
def resolveBackendsForSet (backends : List Backend) (st : St) : Bool × List Backend × St :=
  let r := resolveBackendsForSetLoop backends st true
  let st := if r.2.2 then r.2.1 else
    { r.2.1 with parent := (setError (r.2.1).parent
      ⟨.interfaceErr, "The init phase of kdbSet() has failed. See warnings for details."⟩) }
  (r.2.2, r.1, st)

/-- Selector for the entry point used by `runSetPhase` (enum KdbSetFn). -/
inductive KdbSetFn where
  | setFn
  | commitFn
  | errorFn
deriving DecidableEq, Repr

/-- Entry point name of a `KdbSetFn` selector. -/
def KdbSetFn.fnName : KdbSetFn → String
  | .setFn => "set"
  | .commitFn => "commit"
  | .errorFn => "error"

/-- Whether the backend's plugin exports the entry point selected. -/
def KdbSetFn.present (fn : KdbSetFn) (b : Backend) : Bool :=
  match fn with
  | .setFn => b.plugin.hasSet
  | .commitFn => b.plugin.hasCommit
  | .errorFn => b.plugin.hasError

/-- Loop body of kdb.c `runSetPhase`: reject backends lacking the selected
entry point, set the parent key to the backend's mountpoint name and stored
mountpoint-id value (both read-only during the call), invoke the entry
point for the given phase and interpret the status. -/
def runSetPhaseLoop (fn : KdbSetFn) (phase : String) :
    List Backend → St → Bool → List Backend × St × Bool
  | [], st, succ => ([], st, succ)
  | b :: rest, st, succ =>
    if !fn.present b then
      let st := { st with parent := (addWarning st.parent
        ⟨.interfaceErr, "mountpoint defined a plugin without the required function as a backend"⟩) }
      let r := runSetPhaseLoop fn phase rest st false
      (b :: r.1, r.2.1, r.2.2)
    else
      let co := phaseCallSt fn.fnName phase b st
      let st := co.1
      let out := co.2
      let b := { b with keys := out.keys }
      if out.status = ELEKTRA_PLUGIN_STATUS_SUCCESS ||
          out.status = ELEKTRA_PLUGIN_STATUS_NO_UPDATE then
        let r := runSetPhaseLoop fn phase rest st succ
        (b :: r.1, r.2.1, r.2.2)
      else
        let st := { st with parent := (addWarning st.parent
          ⟨.interfaceErr, "backend plugin has failed during the " ++ phase ++ " phase"⟩) }
        let r := runSetPhaseLoop fn phase rest st false
        (b :: r.1, r.2.1, r.2.2)

/-- Postlude of kdb.c `runSetPhase`: on failure set an interface error
naming the phase; with `blockErrors` the dummy `meta:/error` value (set
before the loop) is removed again, converting any error set during the
phase into a warning, plus an extra warning when the phase failed. -/
def runSetPhasePost (phase : String) (blockErrors : Bool)
    (r : List Backend × St × Bool) : Bool × List Backend × St :=
  let st := if r.2.2 then r.2.1 else
    { r.2.1 with parent := (setError (r.2.1).parent
      ⟨.interfaceErr, "The " ++ phase ++ " phase of kdbSet() has failed. See warnings for details."⟩) }
  let st := if blockErrors then
      let p := { st.parent with errorRoot := false }
      let p := if r.2.2 then p else
        addWarning p ⟨.interfaceErr, "Errors in " ++ phase ++ " are ignored. The error that occurred was converted into a warning."⟩
      { st with parent := p }
    else st
  (r.2.2, r.1, st)

/-- From kdb.c `runSetPhase` (see `runSetPhaseLoop` and `runSetPhasePost`). -/
def runSetPhase (backends : List Backend) (st : St) (phase : String)
    (blockErrors : Bool) (fn : KdbSetFn) : Bool × List Backend × St :=
  let st := if blockErrors then
      { st with parent := { st.parent with errorRoot := true } }
    else st
  runSetPhasePost phase blockErrors (runSetPhaseLoop fn phase backends st true)

/-- The KDB session handle: the mount table and the global keyset, plus the
global-plugin hooks. Modelled from the spec: `elektraGlobalGet` /
`elektraGlobalSet` run the plugin mounted at the position; the hook
behaviour is a function from the keyset to a plugin result. -/
structure KDB where
  backends : List Backend
  global : GKS := []
  presetstorage : List Key → PlugOut := fun ks => { keys := ks }
  procgetstorage : List Key → PlugOut := fun ks => { keys := ks }
  postgetstorage : List Key → PlugOut := fun ks => { keys := ks }

/-- Modelled from the spec: run a global-plugin hook on a keyset; the
plugin's error and warning attempts act on the parent key. -/
def elektraGlobalHook (h : List Key → PlugOut) (ks : List Key) (st : St) :
    Int × List Key × St :=
  let out := h ks
  (out.status, out.keys, { st with parent := applyPlugAttempts st.parent out })

/-- Whether a backend's mountpoint lies in the `spec:/` namespace (the
`ksBelow (backends, specRoot)` subset of kdbGet step 10). -/
def isSpecBackend (b : Backend) : Bool :=
  keyIsBelowOrSame ⟨.specNs, []⟩ b.mountpoint

/-- Write the updated backends of a subset (shared `BackendData`) back into
the full backend list, in order. -/
def mergeSubsetBack (p : Backend → Bool) : List Backend → List Backend → List Backend
  | [], _ => []
  | b :: rest, updated =>
    if p b then
      match updated with
      | u :: urest => u :: mergeSubsetBack p rest urest
      | [] => b :: mergeSubsetBack p rest []
    else b :: mergeSubsetBack p rest updated

/-- The mountpoint-id metadata of the backend owning a name (used by the
`keyCopy (parentKey, keyGetMeta (backendsFindParent ...), KEY_CP_STRING)`
calls; a missing backend or missing metadata clears the value). -/
def ownerMountpointId (backends : List Backend) (n : KeyName) : Option String :=
  (backendsFindParent backends n).bind (fun b => b.mountpointId)

/-- Result of a `kdbGet` call: the return code, the caller's keyset, the
parent key, the final state of the selected backends, the global keyset
and the trace of plugin invocations. -/
structure GetResult where
  ret : Int
  ks : KS
  parent : PKey
  backends : List Backend
  global : GKS
  trace : List TraceEntry

/-- The error label of kdb.c `kdbGet`: restore the parent-key name from the
initial parent, copy the owning backend's mountpoint-id metadata into the
parent value, return -1 with the caller's keyset untouched. -/
def kdbGetError (ks : KS) (initialParent : PKey) (backends : List Backend) (st : St) :
    GetResult :=
  let p := { st.parent with name := initialParent.name }
  let p := { p with value := (ownerMountpointId backends initialParent.name).getD "" }
  ⟨-1, ks, p, backends, st.global, st.trace⟩

/-- Steps 9a to 17 of kdb.c `kdbGet`: the prestorage, storage, spec-subset,
merge, global-hook, divide and poststorage steps, then the update of the
caller's keyset and the restoration of the parent key. -/
def kdbGetPhases (handle : KDB) (ks : KS) (initialParent : PKey)
    (backends : List Backend) (st : St) : GetResult :=
  -- Step 9a: run prestorage phase
  let r9a := runGetPhase backends st KDB_GET_PHASE_PRE_STORAGE
  if !r9a.1 then kdbGetError ks initialParent r9a.2.1 r9a.2.2
  else
  -- Step 9b: discard data that plugins may have produced
  let backends := (r9a.2.1).map (fun b => { b with keys := [] })
  -- Step 9c: run storage phase
  let r9c := runGetPhase backends r9a.2.2 KDB_GET_PHASE_STORAGE
  if !r9c.1 then kdbGetError ks initialParent r9c.2.1 r9c.2.2
  else
  -- Step 10: the source comment says poststorage for spec:/, but the call
  -- passes KDB_GET_PHASE_STORAGE
  let r10 := runGetPhase ((r9c.2.1).filter isSpecBackend) r9c.2.2 KDB_GET_PHASE_STORAGE
  let backends := mergeSubsetBack isSpecBackend r9c.2.1 r10.2.1
  if !r10.1 then kdbGetError ks initialParent backends r10.2.2
  else
  -- Step 11: merge data from all backends
  let dataKs := backendsMerge backends []
  -- Step 12: run procgetstorage global plugins
  let r12 := elektraGlobalHook handle.procgetstorage dataKs r10.2.2
  if r12.1 = ELEKTRA_PLUGIN_STATUS_ERROR then kdbGetError ks initialParent backends r12.2.2
  else
  -- Step 13: run postgetstorage global plugins
  let r13 := elektraGlobalHook handle.postgetstorage r12.2.1 r12.2.2
  if r13.1 = ELEKTRA_PLUGIN_STATUS_ERROR then kdbGetError ks initialParent backends r13.2.2
  else
  -- Step 14: split dataKs for poststorage phase
  match backendsDivide backends r13.2.1 with
  | none =>
    kdbGetError ks initialParent backends
      { r13.2.2 with parent := (setError (r13.2.2).parent
        ⟨.internalErr, "Could not divide keys into mountpoints before poststorage."⟩) }
  | some backends =>
  -- Step 15: run poststorage phase
  let r15 := runGetPhase backends r13.2.2 KDB_GET_PHASE_POST_STORAGE
  if !r15.1 then kdbGetError ks initialParent r15.2.1 r15.2.2
  else
  let backends := r15.2.1
  let st := r15.2.2
  -- Step 16a: remove the parts of ks we read from backends
  let kept := backends.foldl (fun acc b => ksCutKeys acc b.mountpoint) ks.keys
  -- Step 16b: merge data into ks and return
  let newKeys := backendsMerge backends kept
  let p := { st.parent with name := initialParent.name, value := initialParent.value }
  let p := { p with value := (ownerMountpointId backends p.name).getD "" }
  ⟨1, { keys := newKeys, sync := true }, p, backends, st.global, st.trace⟩

/-- From kdb.c `kdbGet`: the get pipeline. Steps numbered as in the source;
the cache steps 6 to 8 are disabled in the source (`cacheEnabled = false`)
and omitted here. -/
def kdbGet (handle : KDB) (ks : KS) (parent : PKey) : GetResult :=
  -- Step 0: preconditions
  if parent.roMeta then ⟨-1, ks, parent, [], handle.global, []⟩
  else
  let parent := clearErrorAndWarnings parent
  if parent.roName then
    ⟨-1, ks, setError parent ⟨.interfaceErr, "parentKey with read-only name passed"⟩,
      [], handle.global, []⟩
  else if parent.roValue then
    ⟨-1, ks, setError parent ⟨.interfaceErr, "parentKey with read-only value passed"⟩,
      [], handle.global, []⟩
  else if parent.name.ns = Namespace.metaNs then
    ⟨-1, ks, setError parent ⟨.interfaceErr, "parentKey with meta name passed"⟩,
      [], handle.global, []⟩
  else
  let initialParent := parent
  -- Step 1: find backends for parentKey
  let backends := backendsForParentKey handle.backends parent.name
  let st : St := ⟨parent, handle.global, []⟩
  -- Step 2: run init phase where needed
  let ri := initBackends backends st
  if !ri.1 then
    let p := { (ri.2.2).parent with name := initialParent.name, value := initialParent.value }
    ⟨-1, ks, p, ri.2.1, (ri.2.2).global, (ri.2.2).trace⟩
  else
  -- Step 3: run resolver phase
  let rr := resolveBackendsForGet ri.2.1 ri.2.2
  if !rr.1 then kdbGetError ks initialParent rr.2.1 rr.2.2
  else
  let st := rr.2.2
  -- Step 4: remove up-to-date backends
  let backends := (rr.2.1).filter (fun b => b.needsUpdate)
  -- Step 5: return if no backends left
  if backends.isEmpty then
    let p := { st.parent with name := initialParent.name, value := initialParent.value }
    let p := { p with value := (ownerMountpointId backends p.name).getD "" }
    ⟨0, ks, p, backends, st.global, st.trace⟩
  else
  -- Steps 9a to 17
  kdbGetPhases handle ks initialParent backends st

/-- Outcome of a `kdbSet` call: either the C function returns a code, or
its step-4 loop never terminates. -/
inductive SetOutcome where
  | diverged
  | returned (r : Int)
deriving DecidableEq, Repr

/-- Result of a `kdbSet` call. `reachedPostcommit` records that control
passed the commit phase into step 14c; `rolledBack` records that the
rollback label was entered. -/
structure SetResult where
  outcome : SetOutcome
  ks : KS
  backends : List Backend
  parent : PKey
  global : GKS
  trace : List TraceEntry
  reachedPostcommit : Bool := false
  rolledBack : Bool := false

/-- Step 4 of kdb.c `kdbSet` as written in the source: iterate the backend
cursor `i`; an uninitialized backend adds a warning and clears the
`backendsInit` flag; a read-only backend pops the element at position `i`
from the caller's keyset `ks` (not from `backends`) and then decrements and
re-increments `i`, so the cursor does not advance. The C loop therefore
never terminates once it reaches a read-only backend; `fuel` bounds the
number of iterations, `none` meaning the loop is still running. -/
def kdbSetStep4 : Nat → List Backend → Nat → KS → PKey → Bool →
    Option (KS × PKey × Bool)
  | 0, _, _, _, _, _ => none
  | fuel + 1, backends, i, ks, p, binit =>
    match backends[i]? with
    | none => some (ks, p, binit)
    | some b =>
      if !b.initialized then
        kdbSetStep4 fuel backends (i + 1) ks
          (addWarning p ⟨.interfaceErr,
            "The mountpoint has not been initialized. You need to call kdbGet() before kdbSet()."⟩)
          false
      else if b.readonly then
        kdbSetStep4 fuel backends i { ks with keys := elektraKsPopAtCursor ks.keys i } p binit
      else
        kdbSetStep4 fuel backends (i + 1) ks p binit

/-- The error label of kdb.c `kdbSet`: restore the parent-key name and
value from the initial parent and return -1. -/
def kdbSetError (ks : KS) (initialParent : PKey) (backends : List Backend) (st : St) :
    SetResult :=
  let p := { st.parent with name := initialParent.name, value := initialParent.value }
  { outcome := .returned (-1), ks := ks, backends := backends, parent := p,
    global := st.global, trace := st.trace }

/-- The rollback label of kdb.c `kdbSet`: run the prerollback, rollback and
postrollback phases (each with errors blocked, results ignored), then fall
through to the error label. -/
def kdbSetRollback (ks : KS) (initialParent : PKey) (backends : List Backend) (st : St) :
    SetResult :=
  let rE1 := runSetPhase backends st KDB_SET_PHASE_PRE_ROLLBACK true .errorFn
  let rE2 := runSetPhase rE1.2.1 rE1.2.2 KDB_SET_PHASE_ROLLBACK true .errorFn
  let rE3 := runSetPhase rE2.2.1 rE2.2.2 KDB_SET_PHASE_POST_ROLLBACK true .errorFn
  let backends := rE3.2.1
  let st := rE3.2.2
  { kdbSetError ks initialParent backends st with rolledBack := true }

/-- Steps 9a to 14c of kdb.c `kdbSet`: the resolver, prestorage, storage,
poststorage, precommit, commit and postcommit phases, with the rollback
label on any failure up to commit. The postcommit phase runs with errors
blocked and its result is ignored. -/
def kdbSetPhases (ks : KS) (initialParent : PKey) (backends : List Backend) (st : St) :
    SetResult :=
  -- Step 9a: resolve backends
  let r9a := resolveBackendsForSet backends st
  if !r9a.1 then kdbSetRollback ks initialParent r9a.2.1 r9a.2.2
  else
  -- Step 9b: run prestorage phase
  let r9b := runSetPhase r9a.2.1 r9a.2.2 KDB_SET_PHASE_PRE_STORAGE false .setFn
  if !r9b.1 then kdbSetRollback ks initialParent r9b.2.1 r9b.2.2
  else
  -- Step 13a: run storage phase
  let r13a := runSetPhase r9b.2.1 r9b.2.2 KDB_SET_PHASE_STORAGE false .setFn
  if !r13a.1 then kdbSetRollback ks initialParent r13a.2.1 r13a.2.2
  else
  -- Step 13b: run poststorage phase
  let r13b := runSetPhase r13a.2.1 r13a.2.2 KDB_SET_PHASE_POST_STORAGE false .setFn
  if !r13b.1 then kdbSetRollback ks initialParent r13b.2.1 r13b.2.2
  else
  -- Step 14a: run precommit phase
  let r14a := runSetPhase r13b.2.1 r13b.2.2 KDB_SET_PHASE_PRE_COMMIT false .commitFn
  if !r14a.1 then kdbSetRollback ks initialParent r14a.2.1 r14a.2.2
  else
  -- Step 14b: run commit phase
  let r14b := runSetPhase r14a.2.1 r14a.2.2 KDB_SET_PHASE_COMMIT false .commitFn
  if !r14b.1 then kdbSetRollback ks initialParent r14b.2.1 r14b.2.2
  else
  -- Step 14c: run postcommit phase (errors blocked, result ignored)
  let r14c := runSetPhase r14b.2.1 r14b.2.2 KDB_SET_PHASE_POST_COMMIT true .commitFn
  -- return 1: no sync-flag clearing and no restoration of the parent key
  { outcome := .returned 1, ks := ks, backends := r14c.2.1, parent := (r14c.2.2).parent,
    global := (r14c.2.2).global, trace := (r14c.2.2).trace, reachedPostcommit := true }

/-- Steps 5 to 14c of kdb.c `kdbSet`, continuing from the outcome of the
step-4 cursor loop: a still-running loop means `kdbSet` never returns; a
finished loop proceeds with the backends-initialized check, the
presetstorage hook, the deep copy, the divide and the phase pipeline. -/
def kdbSetAfterStep4 (handle : KDB) (ks0 : KS) (initialParent : PKey)
    (backends : List Backend) : Option (KS × PKey × Bool) → SetResult
  | none =>
    { outcome := .diverged, ks := ks0, backends := backends, parent := initialParent,
      global := handle.global, trace := [] }
  | some (ks, parent, backendsInit) =>
    let st : St := ⟨parent, handle.global, []⟩
    if !backendsInit then
      kdbSetError ks initialParent backends
        { st with parent := (setError st.parent
          ⟨.interfaceErr, "One or more mountpoints have not been initialized. Have you called kdbGet()? See warnings for details."⟩) }
    else
    -- Step 6: run spec to add metadata (presetstorage global plugins)
    let out6 := handle.presetstorage ks.keys
    let st := { st with parent := applyPlugAttempts st.parent out6 }
    let ks := { ks with keys := out6.keys }
    if out6.status = ELEKTRA_PLUGIN_STATUS_ERROR then
      kdbSetError ks initialParent backends st
    else
    -- Step 7: create deep-copy of ks
    let setKs := ks.keys
    -- Step 8: split setKs for resolver and prestorage phases
    match backendsDivide backends setKs with
    | none =>
      kdbSetError ks initialParent backends
        { st with parent := (setError st.parent
          ⟨.internalErr, "Could not divide keys into mountpoints at start of kdbSet."⟩) }
    | some backends => kdbSetPhases ks initialParent backends st

/-- From kdb.c `kdbSet`: the set pipeline with two-phase commit. Steps
numbered as in the source. `fuel` bounds the iterations of the step-4
cursor loop (see `kdbSetStep4`). -/
def kdbSet (fuel : Nat) (handle : KDB) (ks : KS) (parent : PKey) : SetResult :=
  -- Step 0: preconditions
  if parent.roMeta then
    { outcome := .returned (-1), ks := ks, backends := [], parent := parent,
      global := handle.global, trace := [] }
  else
  let parent := clearErrorAndWarnings parent
  if parent.roName then
    { outcome := .returned (-1), ks := ks, backends := [],
      parent := setError parent ⟨.interfaceErr, "parentKey with read-only name passed"⟩,
      global := handle.global, trace := [] }
  else if parent.roValue then
    { outcome := .returned (-1), ks := ks, backends := [],
      parent := setError parent ⟨.interfaceErr, "parentKey with read-only value passed"⟩,
      global := handle.global, trace := [] }
  else if parent.name.ns = Namespace.metaNs then
    { outcome := .returned (-1), ks := ks, backends := [],
      parent := setError parent ⟨.interfaceErr, "parentKey with meta name passed"⟩,
      global := handle.global, trace := [] }
  else
  -- Steps 1 and 2: check if ks or any key in ks has changed
  if !ksNeedSync ks && !ksKeyNeedSync ks.keys then
    { outcome := .returned 0, ks := ks, backends := [], parent := parent,
      global := handle.global, trace := [] }
  else
  let initialParent := parent
  -- Step 3: find backends for parentKey
  let backends := backendsForParentKey handle.backends parent.name
  -- Step 4: check that backends are initialized and remove read-only ones
  kdbSetAfterStep4 handle ks initialParent backends
    (kdbSetStep4 fuel backends 0 ks parent true)

/-! Mountpoint parsing (`parseAndAddMountpoint`, `elektraMountpointsParse`)
used by step 6 of `kdbOpen`. -/

/-- Mountpoint `user:/a`. -/
def fixMpA : KeyName := ⟨.userNs, ["a"]⟩

/-- Mountpoint `spec:/a`. -/
def fixMpSpecA : KeyName := ⟨.specNs, ["a"]⟩

/-- A dirty key `user:/a/x`. -/
def fixKx : Key := { name := ⟨.userNs, ["a", "x"]⟩, value := "1", sync := true }

/-- A clean spec key `spec:/a/x`. -/
def fixKSpec : Key := { name := ⟨.specNs, ["a", "x"]⟩, value := "1" }

/-- A clean user key `user:/a/x`. -/
def fixKUser : Key := { name := ⟨.userNs, ["a", "x"]⟩, value := "1" }

/-- A well-behaved plugin behaviour: the storage phase of `get` produces
`stored`, the resolver phase writes the storage identifier `cfgfile` into
the parent key, every other call passes its input through; every call
succeeds. -/
def fixOkRun (stored : List Key) : String → String → List Key → String → PlugOut :=
  fun fnNm phase ks v =>
    if fnNm = "get" && phase = "storage" then { status := 1, keys := stored, parentValue := v }
    else if phase = "resolver" then { status := 1, keys := ks, parentValue := "cfgfile" }
    else { status := 1, keys := ks, parentValue := v }

/-- A plugin behaviour whose `set` storage phase fails (setting a
validation error on the parent key); everything else succeeds. -/
def fixFailStorageRun : String → String → List Key → String → PlugOut :=
  fun fnNm phase ks v =>
    if fnNm = "set" && phase = "storage" then
      { status := -1, keys := ks, parentValue := v, errs := [⟨.validationErr, "boom"⟩] }
    else if phase = "resolver" then { status := 1, keys := ks, parentValue := "tmp" }
    else { status := 1, keys := ks, parentValue := v }

/-- An uninitialized backend at `user:/a`. -/
def fixBackendUninit : Backend :=
  { mountpoint := fixMpA, plugin := { pname := "p", run := fixOkRun [fixKUser] } }

/-- An initialized backend at `user:/a` (as left behind by a `kdbGet`). -/
def fixBackendInit : Backend :=
  { mountpoint := fixMpA, plugin := { pname := "p", run := fixOkRun [fixKUser] },
    initialized := true }

/-- An initialized read-only backend at `user:/a` (its `init` returned the
read-only status during a previous `kdbGet`). -/
def fixBackendRo : Backend :=
  { mountpoint := fixMpA, plugin := { pname := "p", run := fixOkRun [fixKUser] },
    initialized := true, readonly := true }

/-- An initialized backend at `user:/a` whose storage phase fails in
`kdbSet`. -/
def fixBackendFail : Backend :=
  { mountpoint := fixMpA, plugin := { pname := "pf", run := fixFailStorageRun },
    initialized := true }

/-- An uninitialized spec backend at `spec:/a`. -/
def fixBackendSpec : Backend :=
  { mountpoint := fixMpSpecA, plugin := { pname := "ps", run := fixOkRun [fixKSpec] } }

/-- An uninitialized user backend at `user:/a`. -/
def fixBackendUser : Backend :=
  { mountpoint := fixMpA, plugin := { pname := "pu", run := fixOkRun [fixKUser] } }

/-- The parent key `user:/a` with no flags set. -/
def fixParentA : PKey := { name := fixMpA }

/-- The cascading root parent key `/`. -/
def fixParentRoot : PKey := { name := ⟨.cascadingNs, []⟩ }

/-- A parent key with read-only metadata. -/
def fixParentRoMeta : PKey := { name := fixMpA, roMeta := true }

/-- Handle with one initialized, writable backend. -/
def fixHandleInit : KDB := { backends := [fixBackendInit] }

/-- Handle with one uninitialized backend. -/
def fixHandleUninit : KDB := { backends := [fixBackendUninit] }

/-- Handle with one initialized read-only backend. -/
def fixHandleRo : KDB := { backends := [fixBackendRo] }

/-- Handle with one initialized backend whose storage phase fails. -/
def fixHandleFail : KDB := { backends := [fixBackendFail] }

/-- Handle with a spec backend and a user backend. -/
def fixHandleBoth : KDB := { backends := [fixBackendSpec, fixBackendUser] }

/-- Verification-side signature of a backend: its mountpoint and plugin
(the parts the phase loops never change). -/
def bsig (b : Backend) : KeyName × Plugin := (b.mountpoint, b.plugin)

/-- Verification-side invariant of a parent key: whenever the dummy
`meta:/error` root is present, a real error is recorded. -/
def PkInv (p : PKey) : Prop := p.errorRoot = true → p.errorInfo.isSome = true

/-- Verification-side contract on a global hook: a failing hook reports at
least one error attempt (as the error macros of real plugins do). -/
def hookOk (h : List Key → PlugOut) : Prop :=
  ∀ ks, (h ks).status = ELEKTRA_PLUGIN_STATUS_ERROR → (h ks).errs ≠ []

/-- A key with the given name occurs in the keyset. -/
def NamePresent (ks : List Key) (n : KeyName) : Prop := ∃ k ∈ ks, k.name = n

/-- Caller key below `user:/a` that the upstream no longer has. -/
def fixKy : Key := { name := ⟨.userNs, ["a", "y"]⟩, value := "2" }

/-- Caller key outside every fixture mountpoint. -/
def fixKz : Key := { name := ⟨.systemNs, ["z"]⟩, value := "9" }

/-! Claim theorems. -/

/-- C2: the claim says every successful `kdbSet` clears the sync flag of
every key in the caller's KeySet. The success path of the code (return 1
after the postcommit phase) performs no sync-flag clearing: here a
successful `kdbSet` over one dirty key returns committed while the key's
sync flag is still set. -/
theorem C2_sync_flags_not_cleared :
    (kdbSet 10 fixHandleInit ⟨[fixKx], true⟩ fixParentA).outcome = .returned 1 ∧
    (kdbSet 10 fixHandleInit ⟨[fixKx], true⟩ fixParentA).ks.keys.all (fun k => k.sync) = true := by
  decide

/-- C6: the claim says that on a failure between resolver and commit the
global KeySet contains `system:/elektra/kdb/backend/failedphase` naming the
failed phase before the rollback phases run. In the code no such key is
ever written: with a failing storage phase, the rollback phases all run and
each `error` invocation observes no failed-phase key (the trace records the
value visible to the plugin at call time), and the final global KeySet has
no such key either. -/
theorem C6_failedphase_never_set :
    (kdbSet 10 fixHandleFail ⟨[fixKx], true⟩ fixParentA).outcome = .returned (-1) ∧
    (kdbSet 10 fixHandleFail ⟨[fixKx], true⟩ fixParentA).rolledBack = true ∧
    ((kdbSet 10 fixHandleFail ⟨[fixKx], true⟩ fixParentA).trace.filter
        (fun e => e.fn = "error")).map (fun e => (e.phase, e.failedVal)) =
      [(KDB_SET_PHASE_PRE_ROLLBACK, none), (KDB_SET_PHASE_ROLLBACK, none),
        (KDB_SET_PHASE_POST_ROLLBACK, none)] ∧
    gLookup (kdbSet 10 fixHandleFail ⟨[fixKx], true⟩ fixParentA).global
      backendFailedPhaseKey = none := by
  decide

/-- C7: the claim says that after the merge the poststorage phase is
applied exclusively to the spec-namespace backends. In the code the
spec-subset step (step 10) passes the storage phase constant (while the
comment says poststorage), and the poststorage phase later runs for all
backends together (step 15): the spec backend's phase sequence contains a
second `storage` invocation and its only `poststorage` invocation happens
in the step shared with the non-spec backend. -/
theorem C7_spec_poststorage_is_storage :
    (kdbGet fixHandleBoth ⟨[], false⟩ fixParentRoot).ret = 1 ∧
    ((kdbGet fixHandleBoth ⟨[], false⟩ fixParentRoot).trace.filter
        (fun e => e.mountpoint = fixMpSpecA)).map (fun e => e.phase) =
      ["init", "resolver", "prestorage", "storage", "storage", "poststorage"] ∧
    ((kdbGet fixHandleBoth ⟨[], false⟩ fixParentRoot).trace.filter
        (fun e => e.mountpoint = fixMpA)).map (fun e => e.phase) =
      ["init", "resolver", "prestorage", "storage", "poststorage"] := by
  decide

/-- C1 counterexample: `kdbSet` on a handle whose selected backend never
went through `kdbGet` (uninitialized) and a KeySet with a sync flag set
returns failed, but the error set on the parent key is an interface error,
not the `conflicting-state` error the claim names. -/
theorem C1_set_without_get_counterexample :
    (kdbSet 10 fixHandleUninit ⟨[fixKx], true⟩ fixParentA).outcome = .returned (-1) ∧
    ((kdbSet 10 fixHandleUninit ⟨[fixKx], true⟩ fixParentA).parent.errorInfo.map
      (fun e => e.kind)) = some .interfaceErr ∧
    ErrKind.interfaceErr ≠ ErrKind.conflictingState := by
  decide

/-- C5 counterexample: a `kdbGet` call whose parent key has read-only
metadata returns failed with the caller's KeySet untouched but with no
error set on the parent key (the code returns -1 before it can write any
error metadata), contradicting the claim that failure always sets an error
on the parent key. -/
theorem C5_failed_without_error_counterexample :
    (kdbGet fixHandleInit ⟨[fixKx], false⟩ fixParentRoMeta).ret = -1 ∧
    (kdbGet fixHandleInit ⟨[fixKx], false⟩ fixParentRoMeta).ks = ⟨[fixKx], false⟩ ∧
    (kdbGet fixHandleInit ⟨[fixKx], false⟩ fixParentRoMeta).parent.errorInfo = none := by
  decide

/-- Helper for C3: once the step-4 cursor of `kdbSet` reaches an
initialized read-only backend, the loop never terminates — it pops the
element at the cursor position from the caller's keyset and does not
advance the cursor, for any amount of fuel. -/
theorem kdbSetStep4_readonly_diverges : ∀ fuel ks p binit,
    kdbSetStep4 fuel [fixBackendRo] 0 ks p binit = none := by
  intro fuel
  induction fuel with
  | zero => intro ks p binit; rfl
  | succ n ih =>
    intro ks p binit
    simp only [kdbSetStep4, fixBackendRo]
    exact ih _ _ _

/-- C3: the claim says a read-only backend is excluded from the write
pipeline (keys silently dropped with a warning) while the caller's KeySet
is processed normally. In the code, step 4 of `kdbSet` pops from the
caller's KeySet `ks` at the backends-cursor position instead of removing
the backend from `backends`, and then fails to advance the cursor: a
`kdbSet` whose selected backend is initialized and read-only never returns
(for every loop bound the step-4 cursor loop is still running). -/
theorem C3_readonly_backend_set_diverges : ∀ fuel : Nat,
    (kdbSet fuel fixHandleRo ⟨[fixKx], true⟩ fixParentA).outcome = .diverged := by
  intro fuel
  simp only [kdbSet]
  rw [show backendsForParentKey fixHandleRo.backends
      (clearErrorAndWarnings fixParentA).name = [fixBackendRo] from rfl]
  rw [kdbSetStep4_readonly_diverges]
  rfl

/-- clearErrorAndWarnings leaves the name unchanged. -/
theorem clearErrorAndWarnings_name (p : PKey) : (clearErrorAndWarnings p).name = p.name := rfl

/-- clearErrorAndWarnings leaves the read-only name flag unchanged. -/
theorem clearErrorAndWarnings_roName (p : PKey) : (clearErrorAndWarnings p).roName = p.roName := rfl

/-- clearErrorAndWarnings leaves the read-only value flag unchanged. -/
theorem clearErrorAndWarnings_roValue (p : PKey) :
    (clearErrorAndWarnings p).roValue = p.roValue := rfl

/-- clearErrorAndWarnings removes the error-root metadata. -/
theorem clearErrorAndWarnings_errorRoot (p : PKey) :
    (clearErrorAndWarnings p).errorRoot = false := rfl

/-- The step-4 cursor loop of `kdbSet` terminates when no selected backend
is flagged read-only; it leaves the caller's keyset untouched, only adds
warnings to the parent key, and reports whether every visited backend was
initialized. -/
theorem kdbSetStep4_no_readonly (bs : List Backend)
    (hro : ∀ b ∈ bs, b.readonly = false) :
    ∀ fuel i, bs.length - i < fuel → ∀ ks p binit,
      ∃ p', kdbSetStep4 fuel bs i ks p binit =
          some (ks, p', binit && (bs.drop i).all (fun b => b.initialized)) ∧
        p'.errorRoot = p.errorRoot ∧ p'.errorInfo = p.errorInfo := by
  intro fuel
  induction fuel with
  | zero => intro i h; omega
  | succ n ih =>
    intro i hlt ks p binit
    match hbs : bs[i]? with
    | none =>
      have hlen : bs.length ≤ i := by
        simpa using List.getElem?_eq_none_iff.mp hbs
      refine ⟨p, ?_, rfl, rfl⟩
      simp only [kdbSetStep4, hbs]
      rw [List.drop_eq_nil_of_le hlen]
      simp
    | some b =>
      have hmem : b ∈ bs := List.getElem?_mem hbs
      have hilt : i < bs.length := by
        by_contra hcon
        rw [List.getElem?_eq_none_iff.mpr (by omega)] at hbs
        exact Option.noConfusion hbs
      have hdrop : bs.drop i = b :: bs.drop (i + 1) := by
        obtain ⟨h1, h2⟩ := List.getElem?_eq_some.mp hbs
        rw [List.drop_eq_getElem_cons h1, h2]
      by_cases hinit : b.initialized
      · obtain ⟨p', heq, h1, h2⟩ := ih (i + 1) (by omega) ks p binit
        refine ⟨p', ?_, h1, h2⟩
        simp only [kdbSetStep4, hbs, hinit, hro b hmem]
        rw [heq, hdrop]
        simp [hinit]
      · obtain ⟨p', heq, h1, h2⟩ := ih (i + 1) (by omega) ks
          (addWarning p ⟨.interfaceErr,
            "The mountpoint has not been initialized. You need to call kdbGet() before kdbSet()."⟩)
          false
        refine ⟨p', ?_, by rw [h1]; rfl, by rw [h2]; rfl⟩
        simp only [kdbSetStep4, hbs, hinit]
        rw [heq, hdrop]
        simp [hinit]

/-- C1 (amended): `kdbSet` on a parent subtree for which no `kdbGet` was
performed (some selected backend uninitialized), with any KeySet carrying a
sync flag, returns failed with an interface error (the message directs the
caller to call `kdbGet` first) set on the parent key — not the
`conflicting-state` error named by the claim. The read-only hypothesis
keeps the step-4 cursor loop terminating (see C3), and the fuel bound
covers the selected backends. -/
theorem C1_set_without_get_interface_error
    (fuel : Nat) (handle : KDB) (ks : KS) (parent : PKey)
    (hm : parent.roMeta = false) (hn : parent.roName = false) (hv : parent.roValue = false)
    (hns : parent.name.ns ≠ Namespace.metaNs)
    (hsync : ksNeedSync ks = true ∨ ksKeyNeedSync ks.keys = true)
    (hsel : ∃ b ∈ backendsForParentKey handle.backends parent.name, b.initialized = false)
    (hro : ∀ b ∈ backendsForParentKey handle.backends parent.name, b.readonly = false)
    (hfuel : (backendsForParentKey handle.backends parent.name).length < fuel) :
    (kdbSet fuel handle ks parent).outcome = .returned (-1) ∧
    (kdbSet fuel handle ks parent).parent.errorInfo =
      some ⟨.interfaceErr, "One or more mountpoints have not been initialized. Have you called kdbGet()? See warnings for details."⟩ := by
  have hs : (!ksNeedSync ks && !ksKeyNeedSync ks.keys) = false := by
    rcases hsync with h | h <;> simp [h]
  obtain ⟨p', heq, hroot, hinfo⟩ :=
    kdbSetStep4_no_readonly (backendsForParentKey handle.backends parent.name) hro fuel 0
      (by simpa using hfuel) ks (clearErrorAndWarnings parent) true
  have hall : (backendsForParentKey handle.backends parent.name).all
      (fun b => b.initialized) = false := by
    obtain ⟨b, hb, hbinit⟩ := hsel
    simp only [List.all_eq_false]
    exact ⟨b, hb, by simp [hbinit]⟩
  rw [List.drop_zero, Bool.true_and, hall] at heq
  constructor <;>
  · simp only [kdbSet, hm, hn, hv, clearErrorAndWarnings_name, clearErrorAndWarnings_roName,
      clearErrorAndWarnings_roValue, Bool.false_eq_true, if_false, hns, ite_false, hs]
    rw [heq]
    simp [kdbSetAfterStep4, kdbSetError, setError, hroot, clearErrorAndWarnings_errorRoot]

/-- C1 witness: the amended theorem applied to a concrete handle with one
uninitialized backend and a dirty one-key KeySet. -/
theorem C1_set_without_get_witness :
    (kdbSet 10 fixHandleUninit ⟨[fixKx], true⟩ fixParentA).outcome = .returned (-1) ∧
    (kdbSet 10 fixHandleUninit ⟨[fixKx], true⟩ fixParentA).parent.errorInfo =
      some ⟨.interfaceErr, "One or more mountpoints have not been initialized. Have you called kdbGet()? See warnings for details."⟩ := by
  have hsel_eq : backendsForParentKey fixHandleUninit.backends fixParentA.name =
      [fixBackendUninit] := rfl
  refine C1_set_without_get_interface_error 10 fixHandleUninit ⟨[fixKx], true⟩ fixParentA
    rfl rfl rfl (by decide) (Or.inl rfl) ?_ ?_ ?_
  · exact ⟨fixBackendUninit, by rw [hsel_eq]; exact List.mem_singleton_self _, rfl⟩
  · intro b hb
    rw [hsel_eq, List.mem_singleton] at hb
    rw [hb]
    rfl
  · rw [hsel_eq]
    decide

theorem setError_name (p : PKey) (e : ErrInfo) : (setError p e).name = p.name := by
  unfold setError; split <;> rfl

theorem setError_fold_name (p : PKey) (errs : List ErrInfo) :
    (errs.foldl setError p).name = p.name := by
  induction errs generalizing p with
  | nil => rfl
  | cons e rest ih => simp only [List.foldl_cons]; rw [ih, setError_name]

theorem applyPlugAttempts_name (p : PKey) (out : PlugOut) :
    (applyPlugAttempts p out).name = p.name := by
  unfold applyPlugAttempts
  exact setError_fold_name p out.errs

theorem addWarning_name (p : PKey) (e : ErrInfo) : (addWarning p e).name = p.name := rfl

theorem phaseCallSt_parent_name (entry ph : String) (b : Backend) (st : St) :
    ((phaseCallSt entry ph b st).1).parent.name = b.mountpoint := by
  unfold phaseCallSt
  rw [show (St.mk _ _ _).parent = _ from rfl, applyPlugAttempts_name]

theorem setError_root_true (p : PKey) (e : ErrInfo) (h : p.errorRoot = true) :
    setError p e = { p with warnings := p.warnings ++ [e] } := by
  unfold setError; rw [if_pos h]

theorem setError_fold_root_true (errs : List ErrInfo) :
    ∀ (p : PKey), p.errorRoot = true →
      (errs.foldl setError p).errorRoot = true ∧
      (errs.foldl setError p).errorInfo = p.errorInfo ∧
      ∃ w, (errs.foldl setError p).warnings = p.warnings ++ w := by
  induction errs with
  | nil => intro p h; exact ⟨h, rfl, [], by simp⟩
  | cons e rest ih =>
    intro p h
    simp only [List.foldl_cons]
    rw [setError_root_true p e h]
    obtain ⟨h1, h2, w, hw⟩ := ih { p with warnings := p.warnings ++ [e] } h
    exact ⟨h1, h2, [e] ++ w, by simp [hw]⟩

theorem applyPlugAttempts_root_true (p : PKey) (out : PlugOut) (h : p.errorRoot = true) :
    (applyPlugAttempts p out).errorRoot = true ∧
    (applyPlugAttempts p out).errorInfo = p.errorInfo ∧
    ∃ w, (applyPlugAttempts p out).warnings = p.warnings ++ w := by
  unfold applyPlugAttempts
  obtain ⟨h1, h2, w, hw⟩ := setError_fold_root_true out.errs p h
  exact ⟨h1, h2, w ++ out.warns, by simp [hw]⟩

theorem phaseCallSt_parent_root_true (entry ph : String) (b : Backend) (st : St)
    (h : st.parent.errorRoot = true) :
    ((phaseCallSt entry ph b st).1).parent.errorRoot = true ∧
    ((phaseCallSt entry ph b st).1).parent.errorInfo = st.parent.errorInfo ∧
    ∃ w, ((phaseCallSt entry ph b st).1).parent.warnings = st.parent.warnings ++ w := by
  unfold phaseCallSt
  exact applyPlugAttempts_root_true _ _ h

theorem runSetPhaseLoop_map_bsig (fn : KdbSetFn) (ph : String) :
    ∀ (bs : List Backend) (st : St) (succ : Bool),
      ((runSetPhaseLoop fn ph bs st succ).1).map bsig = bs.map bsig := by
  intro bs
  induction bs with
  | nil => intro st succ; rfl
  | cons b rest ih =>
    intro st succ
    simp only [runSetPhaseLoop]
    split
    · simp [ih]
    · split <;> simp [bsig, ih]

theorem runSetPhaseLoop_success (fn : KdbSetFn) (ph : String) :
    ∀ (bs : List Backend) (st : St) (succ : Bool),
      (runSetPhaseLoop fn ph bs st succ).2.2 = true →
      succ = true ∧ ∀ b ∈ bs, fn.present b = true := by
  intro bs
  induction bs with
  | nil => intro st succ h; exact ⟨h, by simp⟩
  | cons b rest ih =>
    intro st succ h
    simp only [runSetPhaseLoop] at h
    by_cases hp : fn.present b = true
    · rw [if_neg (by simp [hp])] at h
      split at h
      · obtain ⟨hsucc, hrest⟩ := ih _ _ h
        exact ⟨hsucc, by
          intro c hc
          rcases List.mem_cons.mp hc with hcb | hcr
          · rw [hcb]; exact hp
          · exact hrest c hcr⟩
      · obtain ⟨hfalse, _⟩ := ih _ _ h
        exact absurd hfalse (by simp)
    · rw [if_pos (by simp [hp])] at h
      obtain ⟨hfalse, _⟩ := ih _ _ h
      exact absurd hfalse (by simp)

theorem runSetPhaseLoop_last_name (fn : KdbSetFn) (ph : String) :
    ∀ (bs : List Backend) (st : St) (succ : Bool) (m : KeyName),
      (bs.map (fun b => b.mountpoint)).getLast? = some m →
      (∀ b ∈ bs, fn.present b = true) →
      ((runSetPhaseLoop fn ph bs st succ).2.1).parent.name = m := by
  intro bs
  induction bs with
  | nil => intro st succ m h; simp at h
  | cons b rest ih =>
    intro st succ m hlast hp
    have hpb : fn.present b = true := hp b (List.mem_cons_self _ _)
    simp only [runSetPhaseLoop, hpb, Bool.not_true]
    rw [if_neg (by simp)]
    cases rest with
    | nil =>
      simp only [List.map_cons, List.map_nil, List.getLast?_singleton, Option.some_inj] at hlast
      split <;>
      · show (runSetPhaseLoop fn ph [] _ _).2.1.parent.name = m
        simp only [runSetPhaseLoop]
        first
        | (rw [phaseCallSt_parent_name]; exact hlast)
        | (rw [addWarning_name, phaseCallSt_parent_name]; exact hlast)
    | cons c rest' =>
      have hlast' : ((c :: rest').map (fun b => b.mountpoint)).getLast? = some m := by
        simpa using hlast
      have hp' : ∀ x ∈ c :: rest', fn.present x = true := by
        intro x hx; exact hp x (List.mem_cons_of_mem _ hx)
      split <;> exact ih _ _ _ hlast' hp'

theorem runSetPhaseLoop_root_true (fn : KdbSetFn) (ph : String) :
    ∀ (bs : List Backend) (st : St) (succ : Bool), st.parent.errorRoot = true →
      ((runSetPhaseLoop fn ph bs st succ).2.1).parent.errorRoot = true ∧
      ((runSetPhaseLoop fn ph bs st succ).2.1).parent.errorInfo = st.parent.errorInfo ∧
      ∃ w, ((runSetPhaseLoop fn ph bs st succ).2.1).parent.warnings = st.parent.warnings ++ w := by
  intro bs
  induction bs with
  | nil =>
    intro st succ h
    exact ⟨h, rfl, [], by simp [runSetPhaseLoop]⟩
  | cons b rest ih =>
    intro st succ h
    simp only [runSetPhaseLoop]
    split
    · obtain ⟨h1, h2, w, hw⟩ := ih
        { st with parent := (addWarning st.parent
          ⟨.interfaceErr, "mountpoint defined a plugin without the required function as a backend"⟩) }
        false (by simpa [addWarning] using h)
      refine ⟨h1, by rw [h2]; rfl, ?_⟩
      refine ⟨[(⟨.interfaceErr, "mountpoint defined a plugin without the required function as a backend"⟩ : ErrInfo)] ++ w, ?_⟩
      rw [hw]
      simp [addWarning]
    · obtain ⟨ha1, ha2, wa, hwa⟩ := phaseCallSt_parent_root_true fn.fnName ph b st h
      split
      · obtain ⟨h1, h2, w, hw⟩ := ih (phaseCallSt fn.fnName ph b st).1 succ ha1
        refine ⟨h1, by rw [h2, ha2], ?_⟩
        exact ⟨wa ++ w, by rw [hw, hwa]; simp⟩
      · obtain ⟨h1, h2, w, hw⟩ := ih
          { (phaseCallSt fn.fnName ph b st).1 with
            parent := (addWarning ((phaseCallSt fn.fnName ph b st).1).parent
              ⟨.interfaceErr, "backend plugin has failed during the " ++ ph ++ " phase"⟩) }
          false (by simpa [addWarning] using ha1)
        refine ⟨h1, ?_, ?_⟩
        · rw [h2]
          show (addWarning _ _).errorInfo = _
          simpa [addWarning] using ha2
        · refine ⟨wa ++ [(⟨.interfaceErr, "backend plugin has failed during the " ++ ph ++ " phase"⟩ : ErrInfo)] ++ w, ?_⟩
          rw [hw]
          show (addWarning _ _).warnings ++ w = _
          simp [addWarning, hwa]

theorem runSetPhase_map_bsig (bs : List Backend) (st : St) (ph : String) (be : Bool)
    (fn : KdbSetFn) :
    ((runSetPhase bs st ph be fn).2.1).map bsig = bs.map bsig := by
  simp only [runSetPhase, runSetPhasePost]
  split <;> exact runSetPhaseLoop_map_bsig fn ph bs _ true

theorem runSetPhase_succ_all (bs : List Backend) (st : St) (ph : String) (be : Bool)
    (fn : KdbSetFn) (h : (runSetPhase bs st ph be fn).1 = true) :
    ∀ b ∈ bs, fn.present b = true := by
  simp only [runSetPhase, runSetPhasePost] at h
  exact (runSetPhaseLoop_success fn ph bs _ true h).2

theorem runSetPhasePost_parent_name (ph : String) (be : Bool) (r : List Backend × St × Bool) :
    ((runSetPhasePost ph be r).2.2).parent.name = (r.2.1).parent.name := by
  simp only [runSetPhasePost]
  split <;> split <;> simp [setError_name, addWarning_name]

theorem runSetPhase_eq (bs : List Backend) (st : St) (ph : String) (be : Bool)
    (fn : KdbSetFn) :
    runSetPhase bs st ph be fn = runSetPhasePost ph be (runSetPhaseLoop fn ph bs
      (if be then { st with parent := { st.parent with errorRoot := true } } else st) true) := rfl

theorem runSetPhase_parent_name (bs : List Backend) (st : St) (ph : String) (be : Bool)
    (fn : KdbSetFn) (m : KeyName)
    (hlast : (bs.map (fun b => b.mountpoint)).getLast? = some m)
    (hp : ∀ b ∈ bs, fn.present b = true) :
    ((runSetPhase bs st ph be fn).2.2).parent.name = m := by
  rw [runSetPhase_eq, runSetPhasePost_parent_name]
  exact runSetPhaseLoop_last_name fn ph bs _ true m hlast hp

theorem runSetPhasePost_blocked (ph : String) (r : List Backend × St × Bool) (p0 : PKey)
    (h1 : (r.2.1).parent.errorRoot = true)
    (h2 : (r.2.1).parent.errorInfo = p0.errorInfo)
    (hw : ∃ w, (r.2.1).parent.warnings = p0.warnings ++ w) :
    ((runSetPhasePost ph true r).2.2).parent.errorInfo = p0.errorInfo ∧
    ((runSetPhasePost ph true r).2.2).parent.errorRoot = false ∧
    ∃ w, ((runSetPhasePost ph true r).2.2).parent.warnings = p0.warnings ++ w := by
  obtain ⟨w, hw⟩ := hw
  simp only [runSetPhasePost]
  by_cases hr : r.2.2 = true
  · simp only [hr, if_true]
    exact ⟨h2, by trivial, w, hw⟩
  · rw [Bool.not_eq_true] at hr
    simp only [hr, Bool.false_eq_true, if_false]
    rw [setError_root_true _ _ h1]
    refine ⟨h2, by trivial, ?_⟩
    refine ⟨w ++ [(⟨.interfaceErr, "The " ++ ph ++ " phase of kdbSet() has failed. See warnings for details."⟩ : ErrInfo)]
        ++ [(⟨.interfaceErr, "Errors in " ++ ph ++ " are ignored. The error that occurred was converted into a warning."⟩ : ErrInfo)], ?_⟩
    show (addWarning _ _).warnings = _
    simp [addWarning, hw]

theorem runSetPhase_blocked (bs : List Backend) (st : St) (ph : String) (fn : KdbSetFn) :
    ((runSetPhase bs st ph true fn).2.2).parent.errorInfo = st.parent.errorInfo ∧
    ((runSetPhase bs st ph true fn).2.2).parent.errorRoot = false ∧
    ∃ w, ((runSetPhase bs st ph true fn).2.2).parent.warnings = st.parent.warnings ++ w := by
  rw [runSetPhase_eq]
  obtain ⟨h1, h2, w, hw⟩ := runSetPhaseLoop_root_true fn ph bs
    { st with parent := { st.parent with errorRoot := true } } true rfl
  exact runSetPhasePost_blocked ph _ st.parent h1 h2 ⟨w, hw⟩

theorem phaseCallSt_trace (entry ph : String) (b : Backend) (st : St) :
    ∃ e : TraceEntry, ((phaseCallSt entry ph b st).1).trace = st.trace ++ [e] ∧
      e.mountpoint = b.mountpoint ∧ e.fn = entry ∧ e.phase = ph := by
  exact ⟨_, rfl, rfl, rfl, rfl⟩

theorem runSetPhaseLoop_trace_mono (fn : KdbSetFn) (ph : String) :
    ∀ (bs : List Backend) (st : St) (succ : Bool),
      ∃ t, ((runSetPhaseLoop fn ph bs st succ).2.1).trace = st.trace ++ t := by
  intro bs
  induction bs with
  | nil => intro st succ; exact ⟨[], by simp [runSetPhaseLoop]⟩
  | cons b rest ih =>
    intro st succ
    simp only [runSetPhaseLoop]
    split
    · obtain ⟨t, ht⟩ := ih _ false
      exact ⟨t, by rw [ht]⟩
    · split
      · obtain ⟨t, ht⟩ := ih (phaseCallSt fn.fnName ph b st).1 succ
        obtain ⟨e, he, _⟩ := phaseCallSt_trace fn.fnName ph b st
        refine ⟨[e] ++ t, ?_⟩
        rw [ht]
        show (phaseCallSt fn.fnName ph b st).1.trace ++ t = _
        rw [he]
        simp
      · obtain ⟨t, ht⟩ := ih
          { (phaseCallSt fn.fnName ph b st).1 with
            parent := (addWarning ((phaseCallSt fn.fnName ph b st).1).parent
              ⟨.interfaceErr, "backend plugin has failed during the " ++ ph ++ " phase"⟩) }
          false
        obtain ⟨e, he, _⟩ := phaseCallSt_trace fn.fnName ph b st
        refine ⟨[e] ++ t, ?_⟩
        rw [ht]
        show (phaseCallSt fn.fnName ph b st).1.trace ++ t = _
        rw [he]
        simp

theorem runSetPhaseLoop_trace_entries (fn : KdbSetFn) (ph : String) :
    ∀ (bs : List Backend) (st : St) (succ : Bool) (b : Backend), b ∈ bs →
      fn.present b = true →
      ∃ e ∈ ((runSetPhaseLoop fn ph bs st succ).2.1).trace,
        e.mountpoint = b.mountpoint ∧ e.fn = fn.fnName ∧ e.phase = ph := by
  intro bs
  induction bs with
  | nil => intro st succ b hb; exact absurd hb (List.not_mem_nil b)
  | cons c rest ih =>
    intro st succ b hb hpres
    rcases List.mem_cons.mp hb with hbc | hbr
    · subst hbc
      simp only [runSetPhaseLoop, hpres, Bool.not_true]
      rw [if_neg (by simp)]
      obtain ⟨e, he, hm, hf, hph⟩ := phaseCallSt_trace fn.fnName ph b st
      split
      · obtain ⟨t, ht⟩ := runSetPhaseLoop_trace_mono fn ph rest (phaseCallSt fn.fnName ph b st).1 succ
        refine ⟨e, ?_, hm, hf, hph⟩
        rw [ht, he]
        simp
      · obtain ⟨t, ht⟩ := runSetPhaseLoop_trace_mono fn ph rest
          { (phaseCallSt fn.fnName ph b st).1 with
            parent := (addWarning ((phaseCallSt fn.fnName ph b st).1).parent
              ⟨.interfaceErr, "backend plugin has failed during the " ++ ph ++ " phase"⟩) }
          false
        refine ⟨e, ?_, hm, hf, hph⟩
        rw [ht]
        show e ∈ (phaseCallSt fn.fnName ph b st).1.trace ++ t
        rw [he]
        simp
    · simp only [runSetPhaseLoop]
      split
      · exact ih _ false b hbr hpres
      · split
        · exact ih _ succ b hbr hpres
        · exact ih _ false b hbr hpres

theorem runSetPhase_trace_mono (bs : List Backend) (st : St) (ph : String) (be : Bool)
    (fn : KdbSetFn) :
    ∃ t, ((runSetPhase bs st ph be fn).2.2).trace = st.trace ++ t := by
  rw [runSetPhase_eq]
  have hpost : ∀ r : List Backend × St × Bool,
      ((runSetPhasePost ph be r).2.2).trace = (r.2.1).trace := by
    intro r
    simp only [runSetPhasePost]
    split <;> split <;> rfl
  rw [hpost]
  obtain ⟨t, ht⟩ := runSetPhaseLoop_trace_mono fn ph bs
    (if be then { st with parent := { st.parent with errorRoot := true } } else st) true
  refine ⟨t, ?_⟩
  rw [ht]
  split <;> rfl

theorem runSetPhase_trace_entries (bs : List Backend) (st : St) (ph : String) (be : Bool)
    (fn : KdbSetFn) (b : Backend) (hb : b ∈ bs) (hpres : fn.present b = true) :
    ∃ e ∈ ((runSetPhase bs st ph be fn).2.2).trace,
      e.mountpoint = b.mountpoint ∧ e.fn = fn.fnName ∧ e.phase = ph := by
  rw [runSetPhase_eq]
  have hpost : ∀ r : List Backend × St × Bool,
      ((runSetPhasePost ph be r).2.2).trace = (r.2.1).trace := by
    intro r
    simp only [runSetPhasePost]
    split <;> split <;> rfl
  rw [hpost]
  exact runSetPhaseLoop_trace_entries fn ph bs _ true b hb hpres

theorem resolveBackendsForSetLoop_map_bsig :
    ∀ (bs : List Backend) (st : St) (succ : Bool),
      ((resolveBackendsForSetLoop bs st succ).1).map bsig = bs.map bsig := by
  intro bs
  induction bs with
  | nil => intro st succ; rfl
  | cons b rest ih =>
    intro st succ
    simp only [resolveBackendsForSetLoop]
    split
    · simp [ih, bsig]
    · split <;> simp [bsig, ih]

theorem resolveBackendsForSet_map_bsig (bs : List Backend) (st : St) :
    ((resolveBackendsForSet bs st).2.1).map bsig = bs.map bsig :=
  resolveBackendsForSetLoop_map_bsig bs st true

theorem exists_same_bsig {A B : List Backend} (h : A.map bsig = B.map bsig)
    (b : Backend) (hb : b ∈ B) :
    ∃ c ∈ A, c.mountpoint = b.mountpoint ∧ c.plugin = b.plugin := by
  have hmem : bsig b ∈ A.map bsig := by
    rw [h]
    exact List.mem_map_of_mem bsig hb
  obtain ⟨c, hc, hsig⟩ := List.mem_map.mp hmem
  refine ⟨c, hc, ?_, ?_⟩
  · exact congrArg Prod.fst hsig
  · exact congrArg Prod.snd hsig

theorem KdbSetFn.present_congr (fn : KdbSetFn) (b c : Backend)
    (h : b.plugin = c.plugin) : fn.present b = fn.present c := by
  cases fn <;> simp [KdbSetFn.present, h]

theorem kdbSetError_outcome (ks : KS) (ip : PKey) (bs : List Backend) (st : St) :
    (kdbSetError ks ip bs st).outcome = .returned (-1) := rfl

theorem kdbSetError_reached (ks : KS) (ip : PKey) (bs : List Backend) (st : St) :
    (kdbSetError ks ip bs st).reachedPostcommit = false := rfl

theorem kdbSetError_rolledBack (ks : KS) (ip : PKey) (bs : List Backend) (st : St) :
    (kdbSetError ks ip bs st).rolledBack = false := rfl

theorem kdbSetRollback_outcome (ks : KS) (ip : PKey) (bs : List Backend) (st : St) :
    (kdbSetRollback ks ip bs st).outcome = .returned (-1) := rfl

theorem kdbSetRollback_reached (ks : KS) (ip : PKey) (bs : List Backend) (st : St) :
    (kdbSetRollback ks ip bs st).reachedPostcommit = false := rfl

theorem kdbSetRollback_rolledBack (ks : KS) (ip : PKey) (bs : List Backend) (st : St) :
    (kdbSetRollback ks ip bs st).rolledBack = true := rfl

theorem kdbSetRollback_trace_entries (ks : KS) (ip : PKey) (bs : List Backend) (st : St)
    (b : Backend) (hb : b ∈ bs) (he : b.plugin.hasError = true) :
    (∃ e ∈ (kdbSetRollback ks ip bs st).trace,
      e.mountpoint = b.mountpoint ∧ e.fn = "error" ∧ e.phase = KDB_SET_PHASE_PRE_ROLLBACK) ∧
    (∃ e ∈ (kdbSetRollback ks ip bs st).trace,
      e.mountpoint = b.mountpoint ∧ e.fn = "error" ∧ e.phase = KDB_SET_PHASE_ROLLBACK) ∧
    (∃ e ∈ (kdbSetRollback ks ip bs st).trace,
      e.mountpoint = b.mountpoint ∧ e.fn = "error" ∧ e.phase = KDB_SET_PHASE_POST_ROLLBACK) := by
  have htr : (kdbSetRollback ks ip bs st).trace =
      ((runSetPhase ((runSetPhase ((runSetPhase bs st KDB_SET_PHASE_PRE_ROLLBACK true
            .errorFn).2.1) ((runSetPhase bs st KDB_SET_PHASE_PRE_ROLLBACK true
            .errorFn).2.2) KDB_SET_PHASE_ROLLBACK true .errorFn).2.1)
          ((runSetPhase ((runSetPhase bs st KDB_SET_PHASE_PRE_ROLLBACK true
            .errorFn).2.1) ((runSetPhase bs st KDB_SET_PHASE_PRE_ROLLBACK true
            .errorFn).2.2) KDB_SET_PHASE_ROLLBACK true .errorFn).2.2)
          KDB_SET_PHASE_POST_ROLLBACK true .errorFn).2.2).trace := rfl
  set rE1 := runSetPhase bs st KDB_SET_PHASE_PRE_ROLLBACK true .errorFn with hd1
  set rE2 := runSetPhase rE1.2.1 rE1.2.2 KDB_SET_PHASE_ROLLBACK true .errorFn with hd2
  set rE3 := runSetPhase rE2.2.1 rE2.2.2 KDB_SET_PHASE_POST_ROLLBACK true .errorFn with hd3
  have hsig1 : (rE1.2.1).map bsig = bs.map bsig := runSetPhase_map_bsig bs st _ true .errorFn
  have hsig2 : (rE2.2.1).map bsig = bs.map bsig := by
    rw [runSetPhase_map_bsig rE1.2.1 rE1.2.2 _ true .errorFn]
    exact hsig1
  obtain ⟨c1, hc1, hcm1, hcp1⟩ := exists_same_bsig hsig1 b hb
  obtain ⟨c2, hc2, hcm2, hcp2⟩ := exists_same_bsig hsig2 b hb
  have hpres : KdbSetFn.present .errorFn b = true := he
  have hmono2 := runSetPhase_trace_mono rE1.2.1 rE1.2.2 KDB_SET_PHASE_ROLLBACK true .errorFn
  have hmono3 := runSetPhase_trace_mono rE2.2.1 rE2.2.2 KDB_SET_PHASE_POST_ROLLBACK true .errorFn
  obtain ⟨t2, ht2⟩ := hmono2
  obtain ⟨t3, ht3⟩ := hmono3
  rw [htr]
  refine ⟨?_, ?_, ?_⟩
  · obtain ⟨e, hein, hem, hef, hep⟩ :=
      runSetPhase_trace_entries bs st KDB_SET_PHASE_PRE_ROLLBACK true .errorFn b hb hpres
    refine ⟨e, ?_, hem, hef, hep⟩
    show e ∈ (rE3.2.2).trace
    rw [ht3, ht2]
    simp only [List.mem_append]
    exact Or.inl (Or.inl hein)
  · obtain ⟨e, hein, hem, hef, hep⟩ :=
      runSetPhase_trace_entries rE1.2.1 rE1.2.2 KDB_SET_PHASE_ROLLBACK true .errorFn c1 hc1
        (by rw [KdbSetFn.present_congr .errorFn c1 b hcp1]; exact hpres)
    refine ⟨e, ?_, by rw [hem, hcm1], hef, hep⟩
    show e ∈ (rE3.2.2).trace
    rw [ht3]
    simp only [List.mem_append]
    exact Or.inl hein
  · obtain ⟨e, hein, hem, hef, hep⟩ :=
      runSetPhase_trace_entries rE2.2.1 rE2.2.2 KDB_SET_PHASE_POST_ROLLBACK true .errorFn c2 hc2
        (by rw [KdbSetFn.present_congr .errorFn c2 b hcp2]; exact hpres)
    exact ⟨e, hein, by rw [hem, hcm2], hef, hep⟩

theorem present_transport {A B : List Backend} (h : A.map bsig = B.map bsig)
    (fn : KdbSetFn) (hp : ∀ b ∈ B, fn.present b = true) :
    ∀ b ∈ A, fn.present b = true := by
  intro b hb
  have hmem : bsig b ∈ B.map bsig := by rw [← h]; exact List.mem_map_of_mem bsig hb
  obtain ⟨c, hc, hsig⟩ := List.mem_map.mp hmem
  rw [KdbSetFn.present_congr fn b c (congrArg Prod.snd hsig).symm]
  exact hp c hc

theorem kdbSetPhases_cases (ks : KS) (ip : PKey) (bs : List Backend) (st : St) :
    (∃ bs' st', (bs').map bsig = bs.map bsig ∧
        kdbSetPhases ks ip bs st = kdbSetRollback ks ip bs' st') ∨
    (∃ bs6 st6, (bs6).map bsig = bs.map bsig ∧
        (∀ b ∈ bs6, KdbSetFn.present .commitFn b = true) ∧
        kdbSetPhases ks ip bs st =
          { outcome := .returned 1, ks := ks,
            backends := (runSetPhase bs6 st6 KDB_SET_PHASE_POST_COMMIT true KdbSetFn.commitFn).2.1,
            parent := ((runSetPhase bs6 st6 KDB_SET_PHASE_POST_COMMIT true KdbSetFn.commitFn).2.2).parent,
            global := ((runSetPhase bs6 st6 KDB_SET_PHASE_POST_COMMIT true KdbSetFn.commitFn).2.2).global,
            trace := ((runSetPhase bs6 st6 KDB_SET_PHASE_POST_COMMIT true KdbSetFn.commitFn).2.2).trace,
            reachedPostcommit := true }) := by
  simp only [kdbSetPhases]
  set r9a := resolveBackendsForSet bs st with hd9a
  have hs9a : (r9a.2.1).map bsig = bs.map bsig := resolveBackendsForSet_map_bsig bs st
  by_cases h9a : r9a.1 = true
  case neg =>
    rw [Bool.not_eq_true] at h9a
    simp only [h9a, Bool.not_false, if_true]
    exact Or.inl ⟨r9a.2.1, r9a.2.2, hs9a, rfl⟩
  case pos =>
  simp only [h9a, Bool.not_true, Bool.false_eq_true, if_false]
  set r9b := runSetPhase r9a.2.1 r9a.2.2 KDB_SET_PHASE_PRE_STORAGE false .setFn with hd9b
  have hs9b : (r9b.2.1).map bsig = bs.map bsig := by
    rw [runSetPhase_map_bsig]; exact hs9a
  by_cases h9b : r9b.1 = true
  case neg =>
    rw [Bool.not_eq_true] at h9b
    simp only [h9b, Bool.not_false, if_true]
    exact Or.inl ⟨r9b.2.1, r9b.2.2, hs9b, rfl⟩
  case pos =>
  simp only [h9b, Bool.not_true, Bool.false_eq_true, if_false]
  set r13a := runSetPhase r9b.2.1 r9b.2.2 KDB_SET_PHASE_STORAGE false .setFn with hd13a
  have hs13a : (r13a.2.1).map bsig = bs.map bsig := by
    rw [runSetPhase_map_bsig]; exact hs9b
  by_cases h13a : r13a.1 = true
  case neg =>
    rw [Bool.not_eq_true] at h13a
    simp only [h13a, Bool.not_false, if_true]
    exact Or.inl ⟨r13a.2.1, r13a.2.2, hs13a, rfl⟩
  case pos =>
  simp only [h13a, Bool.not_true, Bool.false_eq_true, if_false]
  set r13b := runSetPhase r13a.2.1 r13a.2.2 KDB_SET_PHASE_POST_STORAGE false .setFn with hd13b
  have hs13b : (r13b.2.1).map bsig = bs.map bsig := by
    rw [runSetPhase_map_bsig]; exact hs13a
  by_cases h13b : r13b.1 = true
  case neg =>
    rw [Bool.not_eq_true] at h13b
    simp only [h13b, Bool.not_false, if_true]
    exact Or.inl ⟨r13b.2.1, r13b.2.2, hs13b, rfl⟩
  case pos =>
  simp only [h13b, Bool.not_true, Bool.false_eq_true, if_false]
  set r14a := runSetPhase r13b.2.1 r13b.2.2 KDB_SET_PHASE_PRE_COMMIT false .commitFn with hd14a
  have hs14a : (r14a.2.1).map bsig = bs.map bsig := by
    rw [runSetPhase_map_bsig]; exact hs13b
  by_cases h14a : r14a.1 = true
  case neg =>
    rw [Bool.not_eq_true] at h14a
    simp only [h14a, Bool.not_false, if_true]
    exact Or.inl ⟨r14a.2.1, r14a.2.2, hs14a, rfl⟩
  case pos =>
  simp only [h14a, Bool.not_true, Bool.false_eq_true, if_false]
  set r14b := runSetPhase r14a.2.1 r14a.2.2 KDB_SET_PHASE_COMMIT false .commitFn with hd14b
  have hs14b : (r14b.2.1).map bsig = bs.map bsig := by
    rw [runSetPhase_map_bsig]; exact hs14a
  by_cases h14b : r14b.1 = true
  case neg =>
    rw [Bool.not_eq_true] at h14b
    simp only [h14b, Bool.not_false, if_true]
    exact Or.inl ⟨r14b.2.1, r14b.2.2, hs14b, rfl⟩
  case pos =>
  simp only [h14b, Bool.not_true, Bool.false_eq_true, if_false]
  refine Or.inr ⟨r14b.2.1, r14b.2.2, hs14b, ?_, rfl⟩
  have hall : ∀ b ∈ r14a.2.1, KdbSetFn.present .commitFn b = true := by
    have := runSetPhase_succ_all r14a.2.1 r14a.2.2 KDB_SET_PHASE_COMMIT false .commitFn
    rw [← hd14b] at this
    exact this h14b
  exact present_transport (by rw [runSetPhase_map_bsig]) .commitFn hall

theorem backendsDivide_map_bsig (bs : List Backend) (ks : List Key) (bs' : List Backend)
    (h : backendsDivide bs ks = some bs') : bs'.map bsig = bs.map bsig := by
  simp only [backendsDivide] at h
  split at h
  · have hb : bs' = bs.map (fun b =>
        { b with keys := ks.filter (fun k =>
            match backendsFindParent bs k.name with
            | some c => c.mountpoint = b.mountpoint
            | none => false) }) := by
      exact (Option.some_inj.mp h).symm
    rw [hb, List.map_map]
    rfl
  · exact Option.noConfusion h

theorem kdbSetAfterStep4_cases (handle : KDB) (ks0 : KS) (ip : PKey)
    (sel : List Backend) (opt : Option (KS × PKey × Bool)) :
    ((kdbSetAfterStep4 handle ks0 ip sel opt).reachedPostcommit = false ∧
     (kdbSetAfterStep4 handle ks0 ip sel opt).rolledBack = false ∧
     (kdbSetAfterStep4 handle ks0 ip sel opt).outcome ≠ .returned 1) ∨
    (∃ ks1 st1 bsd, (bsd).map bsig = sel.map bsig ∧
      kdbSetAfterStep4 handle ks0 ip sel opt = kdbSetPhases ks1 ip bsd st1) := by
  match opt with
  | none => exact Or.inl ⟨rfl, rfl, by simp [kdbSetAfterStep4]⟩
  | some (ks, parent, binit) =>
    simp only [kdbSetAfterStep4]
    by_cases hb : binit = true
    case neg =>
      rw [Bool.not_eq_true] at hb
      simp only [hb, Bool.not_false, if_true]
      exact Or.inl ⟨rfl, rfl, by simp [kdbSetError]⟩
    case pos =>
    simp only [hb, Bool.not_true, Bool.false_eq_true, if_false]
    by_cases h6 : (handle.presetstorage ks.keys).status = ELEKTRA_PLUGIN_STATUS_ERROR
    case pos =>
      simp only [h6, if_true]
      exact Or.inl ⟨rfl, rfl, by simp [kdbSetError]⟩
    case neg =>
    simp only [h6, if_false]
    rcases hdv : backendsDivide sel (handle.presetstorage ks.keys).keys with _ | bsd
    · simp only [hdv]
      exact Or.inl ⟨rfl, rfl, by simp [kdbSetError]⟩
    · simp only [hdv]
      exact Or.inr ⟨{ ks with keys := (handle.presetstorage ks.keys).keys }, _, bsd,
        backendsDivide_map_bsig _ _ _ hdv, rfl⟩

theorem kdbSet_cases (fuel : Nat) (handle : KDB) (ks : KS) (parent : PKey) :
    ((kdbSet fuel handle ks parent).reachedPostcommit = false ∧
     (kdbSet fuel handle ks parent).rolledBack = false ∧
     (kdbSet fuel handle ks parent).outcome ≠ .returned 1) ∨
    kdbSet fuel handle ks parent =
      kdbSetAfterStep4 handle ks (clearErrorAndWarnings parent)
        (backendsForParentKey handle.backends (clearErrorAndWarnings parent).name)
        (kdbSetStep4 fuel (backendsForParentKey handle.backends (clearErrorAndWarnings parent).name)
          0 ks (clearErrorAndWarnings parent) true) := by
  simp only [kdbSet]
  by_cases hm : parent.roMeta = true
  · simp only [hm, if_true]
    exact Or.inl ⟨by trivial, by trivial, by simp⟩
  · simp only [hm, Bool.false_eq_true, if_false]
    by_cases hn : (clearErrorAndWarnings parent).roName = true
    · simp only [hn, if_true]
      exact Or.inl ⟨by trivial, by trivial, by simp⟩
    · simp only [hn, Bool.false_eq_true, if_false]
      by_cases hv : (clearErrorAndWarnings parent).roValue = true
      · simp only [hv, if_true]
        exact Or.inl ⟨by trivial, by trivial, by simp⟩
      · simp only [hv, Bool.false_eq_true, if_false]
        by_cases hns : (clearErrorAndWarnings parent).name.ns = Namespace.metaNs
        · simp only [hns, if_true]
          exact Or.inl ⟨by trivial, by trivial, by simp⟩
        · simp only [hns, if_false]
          by_cases hs : (!ksNeedSync ks && !ksKeyNeedSync ks.keys) = true
          · simp only [hs, if_true]
            exact Or.inl ⟨by trivial, by trivial, by simp⟩
          · simp only [hs, Bool.false_eq_true, if_false]
            exact Or.inr (by trivial)

theorem PkInv_clear (p : PKey) : PkInv (clearErrorAndWarnings p) := by
  intro h
  exact absurd h (by simp [clearErrorAndWarnings])

theorem setError_PkInv (p : PKey) (e : ErrInfo) (h : PkInv p) : PkInv (setError p e) := by
  unfold setError
  split
  · intro hr
    exact h (by assumption)
  · intro _
    rfl

theorem setError_isSome (p : PKey) (e : ErrInfo) (h : PkInv p) :
    (setError p e).errorInfo.isSome = true := by
  unfold setError
  split
  · exact h (by assumption)
  · rfl

theorem setError_isSome_mono (p : PKey) (e : ErrInfo) (h : p.errorInfo.isSome = true) :
    (setError p e).errorInfo.isSome = true := by
  unfold setError
  split
  · exact h
  · rfl

theorem setError_fold_isSome_mono (errs : List ErrInfo) :
    ∀ (p : PKey), p.errorInfo.isSome = true →
      ((errs.foldl setError p).errorInfo).isSome = true := by
  induction errs with
  | nil => intro p h; exact h
  | cons e rest ih =>
    intro p h
    simp only [List.foldl_cons]
    exact ih _ (setError_isSome_mono p e h)

theorem setError_fold_PkInv (errs : List ErrInfo) :
    ∀ (p : PKey), PkInv p → PkInv (errs.foldl setError p) := by
  induction errs with
  | nil => intro p h; exact h
  | cons e rest ih =>
    intro p h
    simp only [List.foldl_cons]
    exact ih _ (setError_PkInv p e h)

theorem addWarning_PkInv (p : PKey) (e : ErrInfo) (h : PkInv p) : PkInv (addWarning p e) := h

theorem applyPlugAttempts_PkInv (p : PKey) (out : PlugOut) (h : PkInv p) :
    PkInv (applyPlugAttempts p out) := by
  unfold applyPlugAttempts
  intro hr
  exact setError_fold_PkInv out.errs p h hr

theorem applyPlugAttempts_isSome (p : PKey) (out : PlugOut) (h : PkInv p)
    (hne : out.errs ≠ []) : ((applyPlugAttempts p out).errorInfo).isSome = true := by
  unfold applyPlugAttempts
  match hout : out.errs with
  | [] => exact absurd hout hne
  | e :: rest =>
    show ((((e :: rest).foldl setError p)).errorInfo).isSome = true
    simp only [List.foldl_cons]
    exact setError_fold_isSome_mono rest _ (setError_isSome p e h)

theorem applyPlugAttempts_isSome_mono (p : PKey) (out : PlugOut)
    (h : p.errorInfo.isSome = true) :
    ((applyPlugAttempts p out).errorInfo).isSome = true := by
  unfold applyPlugAttempts
  exact setError_fold_isSome_mono out.errs p h

theorem phaseCallSt_PkInv (entry ph : String) (b : Backend) (st : St)
    (h : PkInv st.parent) : PkInv ((phaseCallSt entry ph b st).1).parent := by
  unfold phaseCallSt
  exact applyPlugAttempts_PkInv _ _ h

theorem resolverCallSt_PkInv (entry : String) (b : Backend) (st : St)
    (h : PkInv st.parent) : PkInv ((resolverCallSt entry b st).1).parent := by
  unfold resolverCallSt
  exact applyPlugAttempts_PkInv _ _ h

/-- C4: errors in the blocked-error phases (postcommit, prerollback,
rollback, postrollback, which all run with `blockErrors = true`) are
downgraded to warnings on the parent key and leave the prior error intact;
a `kdbSet` that reached the postcommit phase returns 1 (committed); and
whenever `kdbSet` rolled back, every selected backend with an `error`
entry point is invoked in all three rollback phases. -/
theorem C4_postphase_errors_are_warnings :
    (∀ (bs : List Backend) (st : St) (ph : String) (fn : KdbSetFn),
      ((runSetPhase bs st ph true fn).2.2).parent.errorInfo = st.parent.errorInfo ∧
      ((runSetPhase bs st ph true fn).2.2).parent.errorRoot = false ∧
      ∃ w, ((runSetPhase bs st ph true fn).2.2).parent.warnings = st.parent.warnings ++ w) ∧
    (∀ (fuel : Nat) (handle : KDB) (ks : KS) (parent : PKey),
      (kdbSet fuel handle ks parent).reachedPostcommit = true →
      (kdbSet fuel handle ks parent).outcome = SetOutcome.returned 1) ∧
    (∀ (fuel : Nat) (handle : KDB) (ks : KS) (parent : PKey) (b : Backend),
      (kdbSet fuel handle ks parent).rolledBack = true →
      b ∈ backendsForParentKey handle.backends parent.name →
      b.plugin.hasError = true →
      (∃ e ∈ (kdbSet fuel handle ks parent).trace,
        e.mountpoint = b.mountpoint ∧ e.fn = "error" ∧
        e.phase = KDB_SET_PHASE_PRE_ROLLBACK) ∧
      (∃ e ∈ (kdbSet fuel handle ks parent).trace,
        e.mountpoint = b.mountpoint ∧ e.fn = "error" ∧
        e.phase = KDB_SET_PHASE_ROLLBACK) ∧
      (∃ e ∈ (kdbSet fuel handle ks parent).trace,
        e.mountpoint = b.mountpoint ∧ e.fn = "error" ∧
        e.phase = KDB_SET_PHASE_POST_ROLLBACK)) := by
  refine ⟨fun bs st ph fn => runSetPhase_blocked bs st ph fn, ?_, ?_⟩
  · intro fuel handle ks parent h
    rcases kdbSet_cases fuel handle ks parent with ⟨hre, _, _⟩ | heq
    · rw [hre] at h
      exact absurd h (by decide)
    · rw [heq] at h ⊢
      rcases kdbSetAfterStep4_cases handle ks (clearErrorAndWarnings parent) _ _ with
        ⟨hre, _, _⟩ | ⟨ks1, st1, bsd, hsig, heq2⟩
      · rw [hre] at h
        exact absurd h (by decide)
      · rw [heq2] at h ⊢
        rcases kdbSetPhases_cases ks1 (clearErrorAndWarnings parent) bsd st1 with
          ⟨bsr, str, hsig2, heq3⟩ | ⟨bs6, st6, hsig6, hp6, heq3⟩
        · rw [heq3, kdbSetRollback_reached] at h
          exact absurd h (by decide)
        · rw [heq3]
  · intro fuel handle ks parent b h hmem he
    rcases kdbSet_cases fuel handle ks parent with ⟨_, hro, _⟩ | heq
    · rw [hro] at h
      exact absurd h (by decide)
    · rw [heq] at h ⊢
      rcases kdbSetAfterStep4_cases handle ks (clearErrorAndWarnings parent) _ _ with
        ⟨_, hro, _⟩ | ⟨ks1, st1, bsd, hsig, heq2⟩
      · rw [hro] at h
        exact absurd h (by decide)
      · rw [heq2] at h ⊢
        rcases kdbSetPhases_cases ks1 (clearErrorAndWarnings parent) bsd st1 with
          ⟨bsr, str, hsig2, heq3⟩ | ⟨bs6, st6, hsig6, hp6, heq3⟩
        · rw [heq3]
          have hmem2 : b ∈ backendsForParentKey handle.backends
              (clearErrorAndWarnings parent).name := by
            rw [clearErrorAndWarnings_name]
            exact hmem
          have hsigr : bsr.map bsig = (backendsForParentKey handle.backends
              (clearErrorAndWarnings parent).name).map bsig := by
            rw [hsig2, hsig]
          obtain ⟨c, hc, hcm, hcp⟩ := exists_same_bsig hsigr b hmem2
          have hce : c.plugin.hasError = true := by
            rw [hcp]
            exact he
          obtain ⟨h1, h2, h3⟩ :=
            kdbSetRollback_trace_entries ks1 (clearErrorAndWarnings parent) bsr str c hc hce
          obtain ⟨e1, he1, hm1, hf1, hp1⟩ := h1
          obtain ⟨e2, he2, hm2, hf2, hp2⟩ := h2
          obtain ⟨e3, he3, hm3, hf3, hp3⟩ := h3
          exact ⟨⟨e1, he1, by rw [hm1, hcm], hf1, hp1⟩,
            ⟨e2, he2, by rw [hm2, hcm], hf2, hp2⟩,
            ⟨e3, he3, by rw [hm3, hcm], hf3, hp3⟩⟩
        · rw [heq3] at h
          exact absurd h (by simp)

/-- Witness for C4 at concrete inputs: a postcommit run over the empty
backend list leaves no error root; the successful concrete `kdbSet` of the
fixtures returns 1; and the failing concrete `kdbSet` records a rollback
invocation for its backend. -/
theorem C4_postphase_errors_are_warnings_witness :
    ((runSetPhase [] (St.mk fixParentA [] []) KDB_SET_PHASE_POST_COMMIT true
        KdbSetFn.commitFn).2.2).parent.errorRoot = false ∧
    (kdbSet 10 fixHandleInit ⟨[fixKx], true⟩ fixParentA).outcome = SetOutcome.returned 1 ∧
    (∃ e ∈ (kdbSet 10 fixHandleFail ⟨[fixKx], true⟩ fixParentA).trace,
      e.mountpoint = fixBackendFail.mountpoint ∧ e.fn = "error" ∧
      e.phase = KDB_SET_PHASE_ROLLBACK) := by
  have h := C4_postphase_errors_are_warnings
  exact ⟨(h.1 [] (St.mk fixParentA [] []) KDB_SET_PHASE_POST_COMMIT KdbSetFn.commitFn).2.1,
    h.2.1 10 fixHandleInit ⟨[fixKx], true⟩ fixParentA (by decide),
    (h.2.2 10 fixHandleFail ⟨[fixKx], true⟩ fixParentA fixBackendFail (by decide)
      (List.mem_singleton_self fixBackendFail) rfl).2.1⟩

theorem initBackendsLoop_PkInv :
    ∀ (bs : List Backend) (st : St) (succ : Bool), PkInv st.parent →
      PkInv (((initBackendsLoop bs st succ).2.1).parent) := by
  intro bs
  induction bs with
  | nil => intro st succ h; exact h
  | cons b rest ih =>
    intro st succ h
    simp only [initBackendsLoop]
    split
    · exact ih st succ h
    · split
      · exact ih _ false (addWarning_PkInv _ _ h)
      · split
        · exact ih _ succ h
        · split
          · exact ih _ succ h
          · exact ih _ false (addWarning_PkInv _ _ h)

theorem initBackends_PkInv (bs : List Backend) (st : St) (h : PkInv st.parent) :
    PkInv (((initBackends bs st).2.2).parent) ∧
    ((initBackends bs st).1 = false →
      ((((initBackends bs st).2.2).parent).errorInfo).isSome = true) := by
  have hloop := initBackendsLoop_PkInv bs st true h
  rcases hl : initBackendsLoop bs st true with ⟨bs2, st2, succ2⟩
  rw [hl] at hloop
  simp only [initBackends, hl]
  cases succ2
  · exact ⟨setError_PkInv _ _ hloop, fun _ => setError_isSome _ _ hloop⟩
  · exact ⟨hloop, fun hc => absurd hc (by decide)⟩

theorem resolveBackendsForGetLoop_PkInv :
    ∀ (bs : List Backend) (st : St) (succ : Bool), PkInv st.parent →
      PkInv (((resolveBackendsForGetLoop bs st succ).2.1).parent) := by
  intro bs
  induction bs with
  | nil => intro st succ h; exact h
  | cons b rest ih =>
    intro st succ h
    simp only [resolveBackendsForGetLoop]
    split
    · exact ih _ false (addWarning_PkInv _ _ h)
    · split
      · exact ih _ succ (resolverCallSt_PkInv "get" b st h)
      · split
        · exact ih _ succ (resolverCallSt_PkInv "get" b st h)
        · exact ih _ false (addWarning_PkInv _ _ (resolverCallSt_PkInv "get" b st h))

theorem resolveBackendsForGet_PkInv (bs : List Backend) (st : St) (h : PkInv st.parent) :
    PkInv (((resolveBackendsForGet bs st).2.2).parent) ∧
    ((resolveBackendsForGet bs st).1 = false →
      ((((resolveBackendsForGet bs st).2.2).parent).errorInfo).isSome = true) := by
  have hloop := resolveBackendsForGetLoop_PkInv bs st true h
  rcases hl : resolveBackendsForGetLoop bs st true with ⟨bs2, st2, succ2⟩
  rw [hl] at hloop
  simp only [resolveBackendsForGet, hl]
  cases succ2
  · exact ⟨setError_PkInv _ _ hloop, fun _ => setError_isSome _ _ hloop⟩
  · exact ⟨hloop, fun hc => absurd hc (by decide)⟩

theorem runGetPhaseLoop_PkInv (ph : String) :
    ∀ (bs : List Backend) (st : St) (succ : Bool), PkInv st.parent →
      PkInv (((runGetPhaseLoop ph bs st succ).2.1).parent) := by
  intro bs
  induction bs with
  | nil => intro st succ h; exact h
  | cons b rest ih =>
    intro st succ h
    simp only [runGetPhaseLoop]
    split
    · exact ih _ false (addWarning_PkInv _ _ h)
    · split
      · exact ih _ succ (phaseCallSt_PkInv "get" ph b st h)
      · exact ih _ false (addWarning_PkInv _ _ (phaseCallSt_PkInv "get" ph b st h))

theorem runGetPhase_PkInv (bs : List Backend) (st : St) (ph : String) (h : PkInv st.parent) :
    PkInv (((runGetPhase bs st ph).2.2).parent) ∧
    ((runGetPhase bs st ph).1 = false →
      ((((runGetPhase bs st ph).2.2).parent).errorInfo).isSome = true) := by
  have hloop := runGetPhaseLoop_PkInv ph bs st true h
  rcases hl : runGetPhaseLoop ph bs st true with ⟨bs2, st2, succ2⟩
  rw [hl] at hloop
  simp only [runGetPhase, hl]
  cases succ2
  · exact ⟨setError_PkInv _ _ hloop, fun _ => setError_isSome _ _ hloop⟩
  · exact ⟨hloop, fun hc => absurd hc (by decide)⟩

theorem elektraGlobalHook_PkInv (h : List Key → PlugOut) (ks : List Key) (st : St)
    (hp : PkInv st.parent) : PkInv (((elektraGlobalHook h ks st).2.2).parent) :=
  applyPlugAttempts_PkInv _ _ hp

theorem elektraGlobalHook_error_isSome (h : List Key → PlugOut) (ks : List Key) (st : St)
    (hp : PkInv st.parent) (hok : hookOk h)
    (he : (elektraGlobalHook h ks st).1 = ELEKTRA_PLUGIN_STATUS_ERROR) :
    ((((elektraGlobalHook h ks st).2.2).parent).errorInfo).isSome = true :=
  applyPlugAttempts_isSome st.parent (h ks) hp (hok ks he)

theorem kdbGetError_ks (ks : KS) (ip : PKey) (bs : List Backend) (st : St) :
    (kdbGetError ks ip bs st).ks = ks := rfl

theorem kdbGetError_ret (ks : KS) (ip : PKey) (bs : List Backend) (st : St) :
    (kdbGetError ks ip bs st).ret = -1 := rfl

theorem kdbGetError_name (ks : KS) (ip : PKey) (bs : List Backend) (st : St) :
    (kdbGetError ks ip bs st).parent.name = ip.name := rfl

theorem kdbGetError_errorInfo (ks : KS) (ip : PKey) (bs : List Backend) (st : St) :
    (kdbGetError ks ip bs st).parent.errorInfo = st.parent.errorInfo := rfl

theorem kdbGetPhases_cases (handle : KDB) (ks : KS) (ip : PKey) (bs : List Backend)
    (st : St) (hPk : PkInv st.parent) :
    (∃ (bs2 : List Backend) (st2 : St),
      kdbGetPhases handle ks ip bs st = kdbGetError ks ip bs2 st2 ∧
      (hookOk handle.procgetstorage → hookOk handle.postgetstorage →
        (((st2).parent).errorInfo).isSome = true)) ∨
    (∃ (bs15 : List Backend) (st15 : St),
      kdbGetPhases handle ks ip bs st =
        ⟨1, ⟨backendsMerge bs15 (bs15.foldl (fun acc b => ksCutKeys acc b.mountpoint) ks.keys),
            true⟩,
          { st15.parent with name := ip.name, value := (ownerMountpointId bs15 ip.name).getD "" },
          bs15, st15.global, st15.trace⟩) := by
  simp only [kdbGetPhases]
  set r9a := runGetPhase bs st KDB_GET_PHASE_PRE_STORAGE with hd9a
  have hPk9a : PkInv ((r9a.2.2).parent) := (runGetPhase_PkInv bs st _ hPk).1
  by_cases h9a : r9a.1 = true
  case neg =>
    rw [Bool.not_eq_true] at h9a
    simp only [h9a, Bool.not_false, if_true]
    exact Or.inl ⟨r9a.2.1, r9a.2.2, rfl, fun _ _ => (runGetPhase_PkInv bs st _ hPk).2 h9a⟩
  case pos =>
  simp only [h9a, Bool.not_true, Bool.false_eq_true, if_false]
  set r9c := runGetPhase ((r9a.2.1).map (fun b => { b with keys := [] })) r9a.2.2
    KDB_GET_PHASE_STORAGE with hd9c
  have hPk9c : PkInv ((r9c.2.2).parent) := (runGetPhase_PkInv _ _ _ hPk9a).1
  by_cases h9c : r9c.1 = true
  case neg =>
    rw [Bool.not_eq_true] at h9c
    simp only [h9c, Bool.not_false, if_true]
    exact Or.inl ⟨r9c.2.1, r9c.2.2, rfl, fun _ _ => (runGetPhase_PkInv _ _ _ hPk9a).2 h9c⟩
  case pos =>
  simp only [h9c, Bool.not_true, Bool.false_eq_true, if_false]
  set r10 := runGetPhase ((r9c.2.1).filter isSpecBackend) r9c.2.2 KDB_GET_PHASE_STORAGE
    with hd10
  have hPk10 : PkInv ((r10.2.2).parent) := (runGetPhase_PkInv _ _ _ hPk9c).1
  set bs10 := mergeSubsetBack isSpecBackend r9c.2.1 r10.2.1 with hdbs10
  by_cases h10 : r10.1 = true
  case neg =>
    rw [Bool.not_eq_true] at h10
    simp only [h10, Bool.not_false, if_true]
    exact Or.inl ⟨bs10, r10.2.2, rfl, fun _ _ => (runGetPhase_PkInv _ _ _ hPk9c).2 h10⟩
  case pos =>
  simp only [h10, Bool.not_true, Bool.false_eq_true, if_false]
  set r12 := elektraGlobalHook handle.procgetstorage (backendsMerge bs10 []) r10.2.2
    with hd12
  have hPk12 : PkInv ((r12.2.2).parent) := elektraGlobalHook_PkInv _ _ _ hPk10
  by_cases h12 : r12.1 = ELEKTRA_PLUGIN_STATUS_ERROR
  case pos =>
    simp only [h12, if_true]
    exact Or.inl ⟨bs10, r12.2.2, rfl, fun hok1 _ => elektraGlobalHook_error_isSome _ _ _ hPk10 hok1 h12⟩
  case neg =>
  simp only [h12, if_false]
  set r13 := elektraGlobalHook handle.postgetstorage r12.2.1 r12.2.2 with hd13
  have hPk13 : PkInv ((r13.2.2).parent) := elektraGlobalHook_PkInv _ _ _ hPk12
  by_cases h13 : r13.1 = ELEKTRA_PLUGIN_STATUS_ERROR
  case pos =>
    simp only [h13, if_true]
    exact Or.inl ⟨bs10, r13.2.2, rfl, fun _ hok2 => elektraGlobalHook_error_isSome _ _ _ hPk12 hok2 h13⟩
  case neg =>
  simp only [h13, if_false]
  rcases hdv : backendsDivide bs10 r13.2.1 with _ | bsd
  · simp only [hdv]
    exact Or.inl ⟨bs10, { r13.2.2 with parent := (setError (r13.2.2).parent
        ⟨.internalErr, "Could not divide keys into mountpoints before poststorage."⟩) },
      rfl, fun _ _ => setError_isSome _ _ hPk13⟩
  · simp only [hdv]
    set r15 := runGetPhase bsd r13.2.2 KDB_GET_PHASE_POST_STORAGE with hd15
    by_cases h15 : r15.1 = true
    case neg =>
      rw [Bool.not_eq_true] at h15
      simp only [h15, Bool.not_false, if_true]
      exact Or.inl ⟨r15.2.1, r15.2.2, rfl, fun _ _ => (runGetPhase_PkInv _ _ _ hPk13).2 h15⟩
    case pos =>
      simp only [h15, Bool.not_true, Bool.false_eq_true, if_false]
      exact Or.inr ⟨r15.2.1, r15.2.2, rfl⟩

theorem kdbGet_facts (handle : KDB) (ks : KS) (parent : PKey)
    (hm : parent.roMeta = false)
    (hok1 : hookOk handle.procgetstorage) (hok2 : hookOk handle.postgetstorage) :
    ((kdbGet handle ks parent).ret = 0 → (kdbGet handle ks parent).ks = ks) ∧
    ((kdbGet handle ks parent).ret = -1 → (kdbGet handle ks parent).ks = ks ∧
      ((((kdbGet handle ks parent).parent).errorInfo)).isSome = true) ∧
    ((kdbGet handle ks parent).ret = 1 →
      ((kdbGet handle ks parent).parent).name = parent.name ∧
      ∃ (bs15 : List Backend) (gl : GKS) (tr : List TraceEntry) (pp : PKey),
        kdbGet handle ks parent =
          ⟨1, ⟨backendsMerge bs15 (bs15.foldl (fun acc b => ksCutKeys acc b.mountpoint) ks.keys),
              true⟩,
            pp, bs15, gl, tr⟩) := by
  simp only [kdbGet]
  rw [if_neg (by simp [hm] : ¬(parent.roMeta = true))]
  by_cases hn : (clearErrorAndWarnings parent).roName = true
  case pos =>
    rw [if_pos hn]
    refine ⟨fun h => ?_, fun _ => ⟨rfl, setError_isSome _ _ (PkInv_clear parent)⟩,
      fun h => ?_⟩ <;> simp at h
  case neg =>
  rw [if_neg hn]
  by_cases hv : (clearErrorAndWarnings parent).roValue = true
  case pos =>
    rw [if_pos hv]
    refine ⟨fun h => ?_, fun _ => ⟨rfl, setError_isSome _ _ (PkInv_clear parent)⟩,
      fun h => ?_⟩ <;> simp at h
  case neg =>
  rw [if_neg hv]
  by_cases hns : (clearErrorAndWarnings parent).name.ns = Namespace.metaNs
  case pos =>
    rw [if_pos hns]
    refine ⟨fun h => ?_, fun _ => ⟨rfl, setError_isSome _ _ (PkInv_clear parent)⟩,
      fun h => ?_⟩ <;> simp at h
  case neg =>
  rw [if_neg hns]
  set ri := initBackends (backendsForParentKey handle.backends (clearErrorAndWarnings parent).name)
    ⟨clearErrorAndWarnings parent, handle.global, []⟩ with hdri
  have hPkRi := initBackends_PkInv
    (backendsForParentKey handle.backends (clearErrorAndWarnings parent).name)
    ⟨clearErrorAndWarnings parent, handle.global, []⟩ (PkInv_clear parent)
  by_cases hri : ri.1 = true
  case neg =>
    rw [Bool.not_eq_true] at hri
    rw [if_pos (by simp [hri] : (!ri.1) = true)]
    refine ⟨fun h => ?_, fun _ => ⟨rfl, hPkRi.2 hri⟩, fun h => ?_⟩ <;> simp at h
  case pos =>
  rw [if_neg (by simp [hri] : ¬((!ri.1) = true))]
  set rr := resolveBackendsForGet ri.2.1 ri.2.2 with hdrr
  have hPkRr := resolveBackendsForGet_PkInv ri.2.1 ri.2.2 hPkRi.1
  by_cases hrr : rr.1 = true
  case neg =>
    rw [Bool.not_eq_true] at hrr
    rw [if_pos (by simp [hrr] : (!rr.1) = true)]
    refine ⟨fun h => ?_, fun _ => ⟨rfl, hPkRr.2 hrr⟩, fun h => ?_⟩ <;> simp [kdbGetError] at h
  case pos =>
  rw [if_neg (by simp [hrr] : ¬((!rr.1) = true))]
  by_cases he : ((rr.2.1).filter (fun b => b.needsUpdate)).isEmpty = true
  case pos =>
    rw [if_pos he]
    refine ⟨fun _ => rfl, fun h => ?_, fun h => ?_⟩ <;> simp at h
  case neg =>
  rw [if_neg he]
  rcases kdbGetPhases_cases handle ks (clearErrorAndWarnings parent)
      ((rr.2.1).filter (fun b => b.needsUpdate)) rr.2.2 hPkRr.1 with
    ⟨bs2, st2, heq, hsome⟩ | ⟨bs15, st15, heq⟩
  · rw [heq]
    refine ⟨fun h => ?_, fun _ => ⟨rfl, hsome hok1 hok2⟩, fun h => ?_⟩ <;> simp [kdbGetError] at h
  · rw [heq]
    refine ⟨fun h => ?_, fun h => ?_,
      fun _ => ⟨rfl, bs15, st15.global, st15.trace,
        { st15.parent with name := (clearErrorAndWarnings parent).name, value := (ownerMountpointId bs15 (clearErrorAndWarnings parent).name).getD "" }, rfl⟩⟩
    all_goals simp at h

theorem kdbGet_ret1_shape (handle : KDB) (ks : KS) (parent : PKey)
    (h1 : (kdbGet handle ks parent).ret = 1) :
    ((kdbGet handle ks parent).parent).name = parent.name ∧
    ∃ (bs15 : List Backend) (gl : GKS) (tr : List TraceEntry) (pp : PKey),
      kdbGet handle ks parent =
        ⟨1, ⟨backendsMerge bs15 (bs15.foldl (fun acc b => ksCutKeys acc b.mountpoint) ks.keys),
            true⟩, pp, bs15, gl, tr⟩ := by
  revert h1
  simp only [kdbGet]
  by_cases hm : parent.roMeta = true
  case pos =>
    rw [if_pos hm]
    intro h1
    simp at h1
  case neg =>
  rw [if_neg hm]
  by_cases hn : (clearErrorAndWarnings parent).roName = true
  case pos =>
    rw [if_pos hn]
    intro h1
    simp at h1
  case neg =>
  rw [if_neg hn]
  by_cases hv : (clearErrorAndWarnings parent).roValue = true
  case pos =>
    rw [if_pos hv]
    intro h1
    simp at h1
  case neg =>
  rw [if_neg hv]
  by_cases hns : (clearErrorAndWarnings parent).name.ns = Namespace.metaNs
  case pos =>
    rw [if_pos hns]
    intro h1
    simp at h1
  case neg =>
  rw [if_neg hns]
  set ri := initBackends (backendsForParentKey handle.backends (clearErrorAndWarnings parent).name)
    ⟨clearErrorAndWarnings parent, handle.global, []⟩ with hdri
  by_cases hri : ri.1 = true
  case neg =>
    rw [Bool.not_eq_true] at hri
    rw [if_pos (by simp [hri] : (!ri.1) = true)]
    intro h1
    simp at h1
  case pos =>
  rw [if_neg (by simp [hri] : ¬((!ri.1) = true))]
  set rr := resolveBackendsForGet ri.2.1 ri.2.2 with hdrr
  have hPkRi := initBackends_PkInv
    (backendsForParentKey handle.backends (clearErrorAndWarnings parent).name)
    ⟨clearErrorAndWarnings parent, handle.global, []⟩ (PkInv_clear parent)
  have hPkRr := resolveBackendsForGet_PkInv ri.2.1 ri.2.2 hPkRi.1
  by_cases hrr : rr.1 = true
  case neg =>
    rw [Bool.not_eq_true] at hrr
    rw [if_pos (by simp [hrr] : (!rr.1) = true)]
    intro h1
    simp [kdbGetError] at h1
  case pos =>
  rw [if_neg (by simp [hrr] : ¬((!rr.1) = true))]
  by_cases he : ((rr.2.1).filter (fun b => b.needsUpdate)).isEmpty = true
  case pos =>
    rw [if_pos he]
    intro h1
    simp at h1
  case neg =>
  rw [if_neg he]
  rcases kdbGetPhases_cases handle ks (clearErrorAndWarnings parent)
      ((rr.2.1).filter (fun b => b.needsUpdate)) rr.2.2 hPkRr.1 with
    ⟨bs2, st2, heq, _⟩ | ⟨bs15, st15, heq⟩
  · rw [heq]
    intro h1
    simp [kdbGetError] at h1
  · rw [heq]
    intro _
    exact ⟨rfl, bs15, st15.global, st15.trace,
      { st15.parent with name := (clearErrorAndWarnings parent).name, value := (ownerMountpointId bs15 (clearErrorAndWarnings parent).name).getD "" }, rfl⟩

theorem map_mountpoint_of_map_bsig {A B : List Backend} (h : A.map bsig = B.map bsig) :
    A.map (fun b => b.mountpoint) = B.map (fun b => b.mountpoint) := by
  have h2 := congrArg (List.map Prod.fst) h
  simpa [List.map_map, Function.comp, bsig] using h2

/-- C10: a committed `kdbSet` leaves the caller's parent key named after the
mountpoint of the last backend processed (the name restoration happens only
on the no-change and error paths), while a successful `kdbGet` restores the
caller's parent key name. -/
theorem C10_set_leaves_parent_renamed :
    (∀ (fuel : Nat) (handle : KDB) (ks : KS) (parent : PKey) (m : KeyName),
      (kdbSet fuel handle ks parent).outcome = SetOutcome.returned 1 →
      ((backendsForParentKey handle.backends parent.name).map
        (fun b => b.mountpoint)).getLast? = some m →
      ((kdbSet fuel handle ks parent).parent).name = m) ∧
    (∀ (handle : KDB) (ks : KS) (parent : PKey),
      (kdbGet handle ks parent).ret = 1 →
      ((kdbGet handle ks parent).parent).name = parent.name) := by
  constructor
  · intro fuel handle ks parent m hout hlast
    rcases kdbSet_cases fuel handle ks parent with ⟨_, _, hne⟩ | heq
    · exact absurd hout hne
    · rw [heq] at hout ⊢
      rcases kdbSetAfterStep4_cases handle ks (clearErrorAndWarnings parent) _ _ with
        ⟨_, _, hne⟩ | ⟨ks1, st1, bsd, hsig, heq2⟩
      · exact absurd hout hne
      · rw [heq2] at hout ⊢
        rcases kdbSetPhases_cases ks1 (clearErrorAndWarnings parent) bsd st1 with
          ⟨bsr, str, hsig2, heq3⟩ | ⟨bs6, st6, hsig6, hp6, heq3⟩
        · rw [heq3, kdbSetRollback_outcome] at hout
          exact absurd hout (by decide)
        · rw [heq3]
          show ((runSetPhase bs6 st6 KDB_SET_PHASE_POST_COMMIT true
            KdbSetFn.commitFn).2.2).parent.name = m
          apply runSetPhase_parent_name bs6 st6 _ true KdbSetFn.commitFn m ?_ hp6
          have hmm : bs6.map (fun b => b.mountpoint) =
              (backendsForParentKey handle.backends
                (clearErrorAndWarnings parent).name).map (fun b => b.mountpoint) :=
            map_mountpoint_of_map_bsig (by rw [hsig6, hsig])
          rw [hmm, clearErrorAndWarnings_name]
          exact hlast
  · intro handle ks parent h1
    exact (kdbGet_ret1_shape handle ks parent h1).1

/-- Witness for C10 at concrete inputs: committing below `user:/` over the
backend mounted at `user:/a` leaves the parent key renamed to `user:/a`,
while the corresponding successful `kdbGet` hands the parent key back with
its original name. -/
theorem C10_set_leaves_parent_renamed_witness :
    ((kdbSet 10 fixHandleInit ⟨[fixKx], true⟩ { name := ⟨Namespace.userNs, []⟩ }).parent).name
      = fixMpA ∧
    ((kdbGet fixHandleInit ⟨[], false⟩ fixParentA).parent).name = fixParentA.name := by
  have h := C10_set_leaves_parent_renamed
  exact ⟨h.1 10 fixHandleInit ⟨[fixKx], true⟩ { name := ⟨Namespace.userNs, []⟩ } fixMpA
      (by decide) (by decide),
    h.2 fixHandleInit ⟨[], false⟩ fixParentA (by decide)⟩

/-- C5: for a writable parent key (no read-only metadata) and global hooks
that report an error attempt whenever they fail, a `kdbGet` returning 0
(unchanged) or -1 (failed) leaves the caller's keyset exactly as passed in,
and on failure an error is recorded on the parent key. (With a read-only
`meta:` parent the source returns -1 without setting any error, see the
counterexample.) -/
theorem C5_unchanged_failed_frame (handle : KDB) (ks : KS) (parent : PKey)
    (hm : parent.roMeta = false)
    (hok1 : hookOk handle.procgetstorage) (hok2 : hookOk handle.postgetstorage) :
    (((kdbGet handle ks parent).ret = 0 ∨ (kdbGet handle ks parent).ret = -1) →
      (kdbGet handle ks parent).ks = ks) ∧
    ((kdbGet handle ks parent).ret = -1 →
      ((((kdbGet handle ks parent).parent).errorInfo)).isSome = true) := by
  obtain ⟨h0, h1, _⟩ := kdbGet_facts handle ks parent hm hok1 hok2
  exact ⟨fun h => h.elim h0 (fun h => (h1 h).1), fun h => (h1 h).2⟩

/-- Witness for C5 at a concrete input: a `kdbGet` with a read-only-name
parent key fails, returns the caller's keyset untouched and sets an error
on the parent key. -/
theorem C5_unchanged_failed_frame_witness :
    (kdbGet fixHandleInit ⟨[fixKx], false⟩ { name := fixMpA, roName := true }).ks
      = ⟨[fixKx], false⟩ ∧
    ((((kdbGet fixHandleInit ⟨[fixKx], false⟩
      { name := fixMpA, roName := true }).parent).errorInfo)).isSome = true := by
  have hok : hookOk (fun ks => ({ keys := ks } : PlugOut)) := fun ks h => nomatch h
  have h := C5_unchanged_failed_frame fixHandleInit ⟨[fixKx], false⟩
    { name := fixMpA, roName := true } rfl hok hok
  exact ⟨h.1 (Or.inr (by decide)), h.2 (by decide)⟩

theorem mem_ksAppendKey_cases (x k : Key) :
    ∀ (ks : List Key), k ∈ ksAppendKey ks x → k = x ∨ k ∈ ks := by
  intro ks
  induction ks with
  | nil =>
    intro h
    simp [ksAppendKey] at h
    exact Or.inl h
  | cons e rest ih =>
    intro h
    simp only [ksAppendKey] at h
    split at h
    · rcases List.mem_cons.mp h with h | h
      · exact Or.inl h
      · exact Or.inr (List.mem_cons_of_mem e h)
    · rcases List.mem_cons.mp h with h | h
      · exact Or.inr (h ▸ List.mem_cons_self e rest)
      · rcases ih h with h | h
        · exact Or.inl h
        · exact Or.inr (List.mem_cons_of_mem e h)

theorem mem_ksAppendKey_of_ne (x k : Key) (hne : k.name ≠ x.name) :
    ∀ (ks : List Key), k ∈ ks → k ∈ ksAppendKey ks x := by
  intro ks
  induction ks with
  | nil => intro h; exact absurd h (List.not_mem_nil k)
  | cons e rest ih =>
    intro h
    simp only [ksAppendKey]
    rcases List.mem_cons.mp h with h | h
    · subst h
      split
      · exact absurd (by assumption) hne
      · exact List.mem_cons_self _ _
    · split
      · exact List.mem_cons_of_mem _ h
      · exact List.mem_cons_of_mem _ (ih h)

theorem namePresent_ksAppendKey_mono (x : Key) (n : KeyName) :
    ∀ (ks : List Key), NamePresent ks n → NamePresent (ksAppendKey ks x) n := by
  intro ks
  induction ks with
  | nil =>
    rintro ⟨k, hk, _⟩
    exact absurd hk (List.not_mem_nil k)
  | cons e rest ih =>
    rintro ⟨k, hk, hn⟩
    simp only [ksAppendKey]
    split
    · rcases List.mem_cons.mp hk with h | h
      · subst h
        have hc : k.name = x.name := by assumption
        exact ⟨x, List.mem_cons_self _ _, by rw [← hc]; exact hn⟩
      · exact ⟨k, List.mem_cons_of_mem _ h, hn⟩
    · rcases List.mem_cons.mp hk with h | h
      · subst h
        exact ⟨k, List.mem_cons_self _ _, hn⟩
      · obtain ⟨k2, hk2, hn2⟩ := ih ⟨k, h, hn⟩
        exact ⟨k2, List.mem_cons_of_mem _ hk2, hn2⟩

theorem namePresent_ksAppendKey_self (x : Key) :
    ∀ (ks : List Key), NamePresent (ksAppendKey ks x) x.name := by
  intro ks
  induction ks with
  | nil => exact ⟨x, by simp [ksAppendKey], rfl⟩
  | cons e rest ih =>
    simp only [ksAppendKey]
    split
    · exact ⟨x, List.mem_cons_self _ _, rfl⟩
    · obtain ⟨k2, hk2, hn2⟩ := ih
      exact ⟨k2, List.mem_cons_of_mem _ hk2, hn2⟩

theorem not_namePresent_ksAppendKey (x : Key) (n : KeyName) (ks : List Key)
    (h1 : ¬ NamePresent ks n) (h2 : x.name ≠ n) :
    ¬ NamePresent (ksAppendKey ks x) n := by
  rintro ⟨k, hk, hn⟩
  rcases mem_ksAppendKey_cases x k ks hk with h | h
  · exact h2 (h ▸ hn)
  · exact h1 ⟨k, h, hn⟩

theorem mem_ksAppend_left (k : Key) :
    ∀ (other ks : List Key), k ∈ ks → (∀ k2 ∈ other, k2.name ≠ k.name) →
      k ∈ ksAppend ks other := by
  intro other
  induction other with
  | nil => intro ks h _; exact h
  | cons o rest ih =>
    intro ks h hne
    show k ∈ ksAppend (ksAppendKey ks o) rest
    exact ih _ (mem_ksAppendKey_of_ne o k (Ne.symm (hne o (List.mem_cons_self _ _))) ks h)
      (fun k2 hk2 => hne k2 (List.mem_cons_of_mem _ hk2))

theorem namePresent_ksAppend_mono (n : KeyName) :
    ∀ (other ks : List Key), NamePresent ks n → NamePresent (ksAppend ks other) n := by
  intro other
  induction other with
  | nil => intro ks h; exact h
  | cons o rest ih =>
    intro ks h
    exact ih _ (namePresent_ksAppendKey_mono o n ks h)

theorem namePresent_ksAppend_of_mem (kb : Key) :
    ∀ (other ks : List Key), kb ∈ other → NamePresent (ksAppend ks other) kb.name := by
  intro other
  induction other with
  | nil => intro ks h; exact absurd h (List.not_mem_nil kb)
  | cons o rest ih =>
    intro ks h
    rcases List.mem_cons.mp h with h | h
    · subst h
      exact namePresent_ksAppend_mono _ rest _ (namePresent_ksAppendKey_self kb ks)
    · exact ih _ h

theorem not_namePresent_ksAppend (n : KeyName) :
    ∀ (other ks : List Key), ¬ NamePresent ks n → (∀ k2 ∈ other, k2.name ≠ n) →
      ¬ NamePresent (ksAppend ks other) n := by
  intro other
  induction other with
  | nil => intro ks h _; exact h
  | cons o rest ih =>
    intro ks h hne
    exact ih _ (not_namePresent_ksAppendKey o n ks h (hne o (List.mem_cons_self _ _)))
      (fun k2 hk2 => hne k2 (List.mem_cons_of_mem _ hk2))

theorem mem_backendsMerge_left (k : Key) :
    ∀ (bs : List Backend) (init : List Key), k ∈ init →
      (∀ b ∈ bs, ∀ k2 ∈ b.keys, k2.name ≠ k.name) → k ∈ backendsMerge bs init := by
  intro bs
  induction bs with
  | nil => intro init h _; exact h
  | cons b rest ih =>
    intro init h hne
    show k ∈ backendsMerge rest (ksAppend init b.keys)
    exact ih _ (mem_ksAppend_left k b.keys init h
        (fun k2 hk2 => hne b (List.mem_cons_self _ _) k2 hk2))
      (fun b2 hb2 k2 hk2 => hne b2 (List.mem_cons_of_mem _ hb2) k2 hk2)

theorem namePresent_backendsMerge_mono (n : KeyName) :
    ∀ (bs : List Backend) (init : List Key), NamePresent init n →
      NamePresent (backendsMerge bs init) n := by
  intro bs
  induction bs with
  | nil => intro init h; exact h
  | cons b rest ih =>
    intro init h
    exact ih _ (namePresent_ksAppend_mono n b.keys init h)

theorem namePresent_backendsMerge_of_mem (kb : Key) :
    ∀ (bs : List Backend) (init : List Key) (b : Backend), b ∈ bs → kb ∈ b.keys →
      NamePresent (backendsMerge bs init) kb.name := by
  intro bs
  induction bs with
  | nil => intro init b h _; exact absurd h (List.not_mem_nil b)
  | cons b0 rest ih =>
    intro init b h hkb
    rcases List.mem_cons.mp h with h | h
    · subst h
      exact namePresent_backendsMerge_mono _ rest _
        (namePresent_ksAppend_of_mem kb b.keys init hkb)
    · exact ih _ b h hkb

theorem not_namePresent_backendsMerge (n : KeyName) :
    ∀ (bs : List Backend) (init : List Key), ¬ NamePresent init n →
      (∀ b ∈ bs, ∀ k2 ∈ b.keys, k2.name ≠ n) →
      ¬ NamePresent (backendsMerge bs init) n := by
  intro bs
  induction bs with
  | nil => intro init h _; exact h
  | cons b rest ih =>
    intro init h hne
    exact ih _ (not_namePresent_ksAppend n b.keys init h
        (fun k2 hk2 => hne b (List.mem_cons_self _ _) k2 hk2))
      (fun b2 hb2 k2 hk2 => hne b2 (List.mem_cons_of_mem _ hb2) k2 hk2)

theorem mem_foldl_cut (k : Key) :
    ∀ (bs : List Backend) (acc : List Key),
      k ∈ bs.foldl (fun a b => ksCutKeys a b.mountpoint) acc ↔
        (k ∈ acc ∧ ∀ b ∈ bs, keyIsBelowOrSame b.mountpoint k.name = false) := by
  intro bs
  induction bs with
  | nil => intro acc; simp
  | cons b rest ih =>
    intro acc
    simp only [List.foldl_cons]
    rw [ih (ksCutKeys acc b.mountpoint)]
    constructor
    · rintro ⟨h1, h2⟩
      have hf := List.mem_filter.mp h1
      refine ⟨hf.1, ?_⟩
      intro b2 hb2
      rcases List.mem_cons.mp hb2 with h | h
      · subst h
        simpa using hf.2
      · exact h2 b2 h
    · rintro ⟨h1, h2⟩
      refine ⟨List.mem_filter.mpr ⟨h1, ?_⟩,
        fun b2 hb2 => h2 b2 (List.mem_cons_of_mem _ hb2)⟩
      simp [h2 b (List.mem_cons_self _ _)]

/-- C9: for a `kdbGet` returning 1 (updated) whose selected backends only
produce keys below their own mountpoint, (i) every caller key outside all
selected backends' subtrees is preserved in the result, (ii) a caller key
below a selected backend's mountpoint whose name no backend returned is
gone from the result (a key deleted upstream vanishes), and (iii) every
name a backend returned is present in the result. -/
theorem C9_get_update_replaces_subtrees (handle : KDB) (ks : KS) (parent : PKey)
    (h1 : (kdbGet handle ks parent).ret = 1)
    (hcontract : ((kdbGet handle ks parent).backends).all
      (fun b => b.keys.all (fun kb => keyIsBelowOrSame b.mountpoint kb.name)) = true) :
    (∀ k ∈ ks.keys,
      ((kdbGet handle ks parent).backends).all
        (fun b => !keyIsBelowOrSame b.mountpoint k.name) = true →
      k ∈ ((kdbGet handle ks parent).ks).keys) ∧
    (∀ k ∈ ks.keys,
      ((kdbGet handle ks parent).backends).any
        (fun b => keyIsBelowOrSame b.mountpoint k.name) = true →
      ((kdbGet handle ks parent).backends).all
        (fun b2 => b2.keys.all (fun kb => !(kb.name == k.name))) = true →
      ¬ NamePresent ((kdbGet handle ks parent).ks).keys k.name) ∧
    (∀ n : KeyName,
      ((kdbGet handle ks parent).backends).any
        (fun b => b.keys.any (fun kb => kb.name == n)) = true →
      NamePresent ((kdbGet handle ks parent).ks).keys n) := by
  obtain ⟨_, bs15, gl, tr, pp, heq⟩ := kdbGet_ret1_shape handle ks parent h1
  rw [heq] at hcontract ⊢
  simp only [List.all_eq_true] at hcontract
  refine ⟨?_, ?_, ?_⟩
  · intro k hk hout
    simp only [List.all_eq_true] at hout
    show k ∈ backendsMerge bs15 (bs15.foldl (fun acc b => ksCutKeys acc b.mountpoint) ks.keys)
    apply mem_backendsMerge_left
    · exact (mem_foldl_cut k bs15 ks.keys).mpr
        ⟨hk, fun b hb => by simpa using hout b hb⟩
    · intro b hb k2 hk2 hne
      have hb2 : keyIsBelowOrSame b.mountpoint k2.name = true := hcontract b hb k2 hk2
      rw [hne] at hb2
      have hb3 : keyIsBelowOrSame b.mountpoint k.name = false := by simpa using hout b hb
      rw [hb2] at hb3
      exact absurd hb3 (by decide)
  · intro k hk hany hnone
    obtain ⟨b, hb, hbbelow⟩ := List.any_eq_true.mp hany
    simp only [List.all_eq_true] at hnone
    show ¬ NamePresent
      (backendsMerge bs15 (bs15.foldl (fun acc b => ksCutKeys acc b.mountpoint) ks.keys)) k.name
    apply not_namePresent_backendsMerge
    · rintro ⟨k3, hk3, hn3⟩
      obtain ⟨_, hcut⟩ := (mem_foldl_cut k3 bs15 ks.keys).mp hk3
      have := hcut b hb
      rw [hn3, hbbelow] at this
      exact absurd this (by decide)
    · intro b2 hb2 k2 hk2
      have := hnone b2 hb2 k2 hk2
      simpa using this
  · intro n hany
    obtain ⟨b, hb, hbany⟩ := List.any_eq_true.mp hany
    obtain ⟨kb, hkb, hbeq⟩ := List.any_eq_true.mp hbany
    have hn : kb.name = n := by simpa using hbeq
    rw [← hn]
    exact namePresent_backendsMerge_of_mem kb bs15 _ b hb hkb

/-- Witness for C9 at a concrete input: `kdbGet` over the `user:/a` backend
with caller keys `user:/a/y` (stale) and `system:/z` (outside) keeps the
outside key, drops the stale name, and contains the freshly read name
`user:/a/x`. -/
theorem C9_get_update_replaces_subtrees_witness :
    fixKz ∈ ((kdbGet fixHandleInit ⟨[fixKy, fixKz], false⟩ fixParentA).ks).keys ∧
    ¬ NamePresent ((kdbGet fixHandleInit ⟨[fixKy, fixKz], false⟩ fixParentA).ks).keys
      fixKy.name ∧
    NamePresent ((kdbGet fixHandleInit ⟨[fixKy, fixKz], false⟩ fixParentA).ks).keys
      fixKUser.name := by
  have h := C9_get_update_replaces_subtrees fixHandleInit ⟨[fixKy, fixKz], false⟩ fixParentA
    (by decide) (by decide)
  exact ⟨h.1 fixKz (by decide) (by decide),
    h.2.1 fixKy (by decide) (by decide) (by decide),
    h.2.2 fixKUser.name (by decide)⟩

end Elektra
